import Mathlib

/-!
Verification of the phantom-geometry measurement engine of the
Hazen-ScottishACR fork: rod detection, trapezoid fitting and slice width
(`hazenlib/slice_width.py`), integral uniformity (`hazenlib/tasks/acr_uniformity.py`),
signal ghosting (`hazenlib/tasks/acr_ghosting.py`) and coordinate transforms /
template registration (`hazenlib/relaxometry.py`).

Numbers are modelled by exact rationals `ℚ`.  The library arithmetic on `ℚ`
is irreducible, so the development uses its own kernel-reducible wrappers
(`qadd`, `qsub`, `qmul`, `qdiv`, `qneg`) built on `mkRat`; each is proved
equal to the corresponding field operation, so concrete runs evaluate by
`decide` while algebraic lemmas work in the usual ordered-field theory.
-/

/-- Kernel-reducible addition on `ℚ` (same value as `a + b`). -/
def qadd (a b : ℚ) : ℚ := mkRat (a.num * (b.den : ℤ) + b.num * (a.den : ℤ)) (a.den * b.den)

/-- Kernel-reducible negation on `ℚ` (same value as `-a`). -/
def qneg (a : ℚ) : ℚ := mkRat (-a.num) a.den

/-- Kernel-reducible subtraction on `ℚ` (same value as `a - b`). -/
def qsub (a b : ℚ) : ℚ := qadd a (qneg b)

/-- Kernel-reducible multiplication on `ℚ` (same value as `a * b`). -/
def qmul (a b : ℚ) : ℚ := mkRat (a.num * b.num) (a.den * b.den)

/-- Kernel-reducible division on `ℚ` (same value as `a / b`, with `a / 0 = 0`). -/
def qdiv (a b : ℚ) : ℚ := mkRat (a.num * (b.den : ℤ) * b.num.sign) (a.den * b.num.natAbs)

/-- Kernel-reducible absolute value on `ℚ` (same value as `|a|`). -/
def qabs (a : ℚ) : ℚ := if a < 0 then qneg a else a

/-- Sum of a list of rationals, kernel-reducible. -/
def qsum (l : List ℚ) : ℚ := l.foldr qadd 0

/-- Kernel-reducible embedding of an integer into `ℚ`. -/
def qint (z : ℤ) : ℚ := mkRat z 1

/-- Floor of a rational as an integer (kernel-reducible). -/
def qfloor (x : ℚ) : ℤ := x.num.fdiv x.den

/-! ### `hazenlib/slice_width.py`: the trapezoid model

`trapezoid(n_ramp, n_plateau, n_left_baseline, n_right_baseline,
plateau_amplitude)` synthesises the 1-D signal and returns it together with
`fwhm = n_plateau + n_ramp` (lines 265-297 of `slice_width.py`).  Integer
segment lengths are Python ints, hence `ℤ`; each segment below 1 is replaced
by the empty list exactly as in the source. -/

/-- `np.linspace(a, b, num)` on exact rationals; `num = 1` gives `[a]`,
as in numpy. -/
def linspace (a b : ℚ) (num : ℕ) : List ℚ :=
  if num = 1 then [a]
  else (List.range num).map
    (fun k : ℕ => qadd a (qdiv (qmul (qint (k : ℤ)) (qsub b a)) (qint ((num : ℤ) - 1))))

/-- The five trapezoid parameters, in the order of the Python list
`[n_ramp, n_plateau, n_left_baseline, n_right_baseline, plateau_amplitude]`. -/
structure TrapCoeffs where
  nRamp : ℤ
  nPlateau : ℤ
  nLeftBaseline : ℤ
  nRightBaseline : ℤ
  plateauAmplitude : ℚ
deriving DecidableEq, Repr

/-- `trapezoid` from `slice_width.py` (lines 265-297): builds
baseline/ramp/plateau/ramp/baseline segments, skipping any segment whose
length is `< 1`, and returns the concatenation plus `fwhm`. -/
def trapezoid (n_ramp n_plateau n_left_baseline n_right_baseline : ℤ)
    (plateau_amplitude : ℚ) : List ℚ × ℤ :=
  let left_baseline := if n_left_baseline < 1 then [] else
    List.replicate n_left_baseline.toNat (0 : ℚ)
  let left_ramp := if n_ramp < 1 then [] else linspace 0 plateau_amplitude n_ramp.toNat
  let right_ramp := if n_ramp < 1 then [] else linspace plateau_amplitude 0 n_ramp.toNat
  let plateau := if n_plateau < 1 then [] else
    List.replicate n_plateau.toNat plateau_amplitude
  let right_baseline := if n_right_baseline < 1 then [] else
    List.replicate n_right_baseline.toNat (0 : ℚ)
  (left_baseline ++ left_ramp ++ plateau ++ right_ramp ++ right_baseline,
    n_plateau + n_ramp)

/-- `trapezoid(*coeffs)` on a packed coefficient record. -/
def trapezoidOf (c : TrapCoeffs) : List ℚ × ℤ :=
  trapezoid c.nRamp c.nPlateau c.nLeftBaseline c.nRightBaseline c.plateauAmplitude

/-- `sample_spacing = 0.25` (line 481 of `slice_width.py`). -/
def sampleSpacing : ℚ := mkRat 1 4

/-- Python `round` / `np.round` to the nearest integer: round half to even. -/
def roundHalfEven (x : ℚ) : ℤ :=
  let f := qfloor x
  let frac := qsub x (qint f)
  if frac < mkRat 1 2 then f
  else if mkRat 1 2 < frac then f + 1
  else if f % 2 = 0 then f else f + 1

/-- Python `round(x, n)` for rationals: round half to even at `n` decimals. -/
def roundTo (ndigits : ℕ) (x : ℚ) : ℚ :=
  qdiv (qint (roundHalfEven (qmul x (qint (10 ^ ndigits))))) (qint (10 ^ ndigits))

/-- `get_rod_distortion_correction_coefficients` (lines 167-180 of
`slice_width.py`): top uses the mean of horizontal distances 1 and 2, bottom
the mean of distances 0 and 1, each divided by the 120 mm nominal rod
separation and rounded to 4 decimals.  Returns `(top, bottom)`. -/
def getRodDistortionCorrectionCoefficients (h0 h1 h2 : ℚ) : ℚ × ℚ :=
  (roundTo 4 (qdiv (qdiv (qadd h1 h2) (qint 2)) (qint 120)),
   roundTo 4 (qdiv (qdiv (qadd h0 h1) (qint 2)) (qint 120)))


/-! ### `hazenlib/slice_width.py`: rods and their ordering

`Rod` stores an (x, y) centroid in image coordinates (y grows downwards, so
the bottom row of the phantom has the largest y).  `sort_rods`
(lines 65-73) sorts by y, slices off `[-3:]`, `[3:6]`, `[0:3]` as the three
rows, sorts each row by x and concatenates bottom row, middle row, top row.
Python `sorted` is a stable sort; the model uses insertion sort, which
coincides with it on inputs whose sort keys are pairwise distinct — the
situation covered by the theorems below. -/

/-- A rod centroid, `Rod(x, y)` from `slice_width.py`. -/
structure Rod where
  x : ℚ
  y : ℚ
deriving DecidableEq, Repr

instance decRodLeY : DecidableRel (fun a b : Rod => a.y ≤ b.y) :=
  fun a b => inferInstanceAs (Decidable (a.y ≤ b.y))

instance decRodLeX : DecidableRel (fun a b : Rod => a.x ≤ b.x) :=
  fun a b => inferInstanceAs (Decidable (a.x ≤ b.x))

instance totRodLeY : IsTotal Rod (fun a b : Rod => a.y ≤ b.y) :=
  ⟨fun a b => le_total a.y b.y⟩

instance transRodLeY : IsTrans Rod (fun a b : Rod => a.y ≤ b.y) :=
  ⟨fun _ _ _ h1 h2 => le_trans h1 h2⟩

instance totRodLeX : IsTotal Rod (fun a b : Rod => a.x ≤ b.x) :=
  ⟨fun a b => le_total a.x b.x⟩

instance transRodLeX : IsTrans Rod (fun a b : Rod => a.x ≤ b.x) :=
  ⟨fun _ _ _ h1 h2 => le_trans h1 h2⟩

/-- `sorted(rods, key=lambda rod: rod.y)`. -/
def sortedByY (rods : List Rod) : List Rod :=
  List.insertionSort (fun a b : Rod => a.y ≤ b.y) rods

/-- `sorted(row, key=lambda rod: rod.x)`. -/
def sortedByX (rods : List Rod) : List Rod :=
  List.insertionSort (fun a b : Rod => a.x ≤ b.x) rods

/-- `sort_rods` from `slice_width.py` (lines 65-73). -/
def sortRods (rods : List Rod) : List Rod :=
  let byY := sortedByY rods
  let lower_row := sortedByX (byY.drop (byY.length - 3))
  let middle_row := sortedByX ((byY.drop 3).take 3)
  let upper_row := sortedByX (byY.take 3)
  lower_row ++ middle_row ++ upper_row


/-! ### `hazenlib/slice_width.py`: `get_rods` (lines 76-124)

`get_rods` sweeps thresholds `x` in `range(0, img_max)`, binarises with
`arr <= x`, counts connected components with `scipy.ndimage.label` (default
4-connectivity), takes the indices whose count is 10, thresholds at the
truncated median index, relabels, and exits the process via
`sys.exit("Did not find the 9 rods")` unless exactly 10 components are
found; otherwise it returns the intensity-weighted centroids of components
2..10 as `Rod(x, y)`, ordered by `sort_rods`.

Components are modelled by a fuelled flood fill over the boolean grid;
component sets and their raster order of first appearance agree with
`ndimage.label`.  Pixel values are the unsigned DICOM intensities (`ℕ`). -/

instance decEqExcept {e a : Type} [DecidableEq e] [DecidableEq a] :
    DecidableEq (Except e a) := fun x y =>
  match x, y with
  | .ok u, .ok v =>
    if h : u = v then isTrue (by rw [h]) else isFalse (fun hc => h (by injection hc))
  | .ok _, .error _ => isFalse (fun hc => Except.noConfusion hc)
  | .error _, .ok _ => isFalse (fun hc => Except.noConfusion hc)
  | .error u, .error v =>
    if h : u = v then isTrue (by rw [h]) else isFalse (fun hc => h (by injection hc))

/-- A pixel position `(row, column)`. -/
abbrev Cell := ℕ × ℕ

/-- Boolean grid lookup, `false` outside the grid. -/
def maskGet (m : List (List Bool)) (c : Cell) : Bool :=
  ((m.getD c.1 []).getD c.2 false)

/-- Pixel lookup in an intensity grid, 0 outside. -/
def pixGet (img : List (List ℕ)) (c : Cell) : ℕ :=
  ((img.getD c.1 []).getD c.2 0)

/-- The 4-neighbourhood used by `ndimage.label`'s default structuring
element. -/
def neighbors4 (c : Cell) : List Cell :=
  [(c.1 + 1, c.2), (c.1, c.2 + 1)]
    ++ (if c.1 = 0 then [] else [(c.1 - 1, c.2)])
    ++ (if c.2 = 0 then [] else [(c.1, c.2 - 1)])

/-- Fuelled flood fill: pops cells off the frontier, marking reachable
`true` cells as visited. -/
def flood (m : List (List Bool)) : ℕ → List Cell → List Cell → List Cell
  | 0, visited, _ => visited
  | _ + 1, visited, [] => visited
  | fuel + 1, visited, c :: frontier =>
    if c ∈ visited then flood m fuel visited frontier
    else if maskGet m c then flood m fuel (c :: visited) (neighbors4 c ++ frontier)
    else flood m fuel visited frontier

/-- Raster scan collecting connected components of `true` cells, in order
of first appearance (the label order of `ndimage.label`). -/
def componentsAux (m : List (List Bool)) (fuel : ℕ) :
    List Cell → List Cell → List (List Cell) → List (List Cell)
  | [], _, acc => acc.reverse
  | c :: rest, visited, acc =>
    if c ∈ visited then componentsAux m fuel rest visited acc
    else if maskGet m c then
      let visited' := flood m fuel visited [c]
      componentsAux m fuel rest visited'
        ((visited'.filter (fun d => decide (d ∉ visited))) :: acc)
    else componentsAux m fuel rest visited acc

/-- All in-grid cells of a grid, in raster order. -/
def gridCells (m : List (List Bool)) : List Cell :=
  (List.range m.length).flatMap
    (fun i => (List.range ((m.getD i []).length)).map (fun j => (i, j)))

/-- Connected components (4-connectivity) of the `true` cells of a boolean
grid, as produced by `scipy.ndimage.label`: one cell set per label, in label
order. -/
def components (m : List (List Bool)) : List (List Cell) :=
  let fuel := 5 * (m.foldl (fun acc row => acc + row.length) 0) + 5
  componentsAux m fuel (gridCells m) [] []

/-- Binarisation `arr <= t` of `get_rods` (line 101/111). -/
def threshMask (img : List (List ℕ)) (t : ℤ) : List (List Bool) :=
  img.map (fun row => row.map (fun (v : ℕ) => decide (((v : ℕ) : ℤ) ≤ t)))

/-- `np.max(arr)` for an unsigned-integer image. -/
def natGridMax (img : List (List ℕ)) : ℕ :=
  img.foldl (fun acc row => row.foldl max acc) 0

/-- Truncation of a rational towards zero, Python `astype(np.int)` on a
finite float. -/
def qtrunc (x : ℚ) : ℤ := x.num.tdiv (x.den : ℤ)

/-- `np.median` of an already ascending list of naturals (the qualifying
threshold indices are produced in ascending order). -/
def medianOfSorted (xs : List ℕ) : ℚ :=
  let n := xs.length
  if n % 2 = 1 then qint ((xs.getD (n / 2) 0 : ℕ) : ℤ)
  else qdiv (qint ((xs.getD (n / 2 - 1) 0 : ℕ) + (xs.getD (n / 2) 0 : ℕ) : ℤ)) (qint 2)

/-- `np.int64` minimum: the value produced by `np.median([]).astype(np.int)`
(`NaN` cast to a 64-bit integer) on the platforms hazen runs on. -/
def intMin64 : ℤ := -(2 ^ 63)

/-- `scipy.ndimage.measurements.center_of_mass`: intensity-weighted centroid
`(row, column)` of one component's cells. -/
def centerOfMass (img : List (List ℕ)) (cells : List Cell) : ℚ × ℚ :=
  let total := cells.foldl (fun acc c => acc + pixGet img c) 0
  let m0 := cells.foldl (fun acc c => acc + pixGet img c * c.1) 0
  let m1 := cells.foldl (fun acc c => acc + pixGet img c * c.2) 0
  (qdiv (qint (m0 : ℤ)) (qint (total : ℤ)), qdiv (qint (m1 : ℤ)) (qint (total : ℤ)))

/-- Failure modes of `get_rods`.  The code only ever terminates the process
via `sys.exit` (line 117); `detectionError` is the failure kind named by the
specification and is never produced. -/
inductive RodFailure where
  | detectionError
  | sysExit (msg : String)
deriving DecidableEq, Repr

/-- `get_rods` from `slice_width.py` (lines 76-124). -/
def getRods (img : List (List ℕ)) : Except RodFailure (List Rod) :=
  let imgMax := natGridMax img
  let index := (List.range imgMax).filter
    (fun (x : ℕ) => decide ((components (threshMask img ((x : ℕ) : ℤ))).length = 10))
  let thres_ind : ℤ := if index.isEmpty then intMin64 else qtrunc (medianOfSorted index)
  let comps := components (threshMask img thres_ind)
  if comps.length = 10 then
    let cms := (comps.drop 1).map (fun comp => centerOfMass img comp)
    Except.ok (sortRods (cms.map (fun p => Rod.mk p.2 p.1)))
  else Except.error (.sysExit "Did not find the 9 rods")

/-- A 7x7 test image with bright background (value 2) and 8 pairwise
non-adjacent dark disks (value 1): at every threshold of the sweep the
component count is 0 or 8, never the 10 expected for 9 rods. -/
def eightDiskImage : List (List ℕ) :=
  [[2, 2, 2, 2, 2, 2, 2],
   [2, 1, 2, 1, 2, 1, 2],
   [2, 2, 2, 2, 2, 2, 2],
   [2, 1, 2, 1, 2, 1, 2],
   [2, 2, 2, 2, 2, 2, 2],
   [2, 1, 2, 1, 2, 2, 2],
   [2, 2, 2, 2, 2, 2, 2]]


/-! ### `hazenlib/relaxometry.py`: `transform_coords` (lines 80-131)

`cv2.transform` applies a 2x3 affine matrix to xy points:
`(x, y) -> (a x + b y + c, d x + e y + f)`.  `np.flip(coords, axis=1)`
swaps the two entries of every coordinate pair.  `cv2.invertAffineTransform`
(the library inverse used by callers of `template_fit`) returns the affine
inverse `[Rinv | -Rinv t]`. -/

/-- A 2x3 affine transform matrix: row 1 is `(a, b, c)`, row 2 `(d, e, f)`. -/
structure Mat23 where
  a : ℚ
  b : ℚ
  c : ℚ
  d : ℚ
  e : ℚ
  f : ℚ
deriving DecidableEq, Repr

/-- `cv2.transform` on one xy point. -/
def cvTransformPoint (M : Mat23) (p : ℚ × ℚ) : ℚ × ℚ :=
  (qadd (qadd (qmul M.a p.1) (qmul M.b p.2)) M.c,
   qadd (qadd (qmul M.d p.1) (qmul M.e p.2)) M.f)

/-- Swap the two entries of a coordinate pair (`np.flip(..., axis=1)` on one
row of an (n,2) array). -/
def flipPair (p : ℚ × ℚ) : ℚ × ℚ := (p.2, p.1)

/-- `transform_coords(coords, rt_matrix, input_yx, output_yx)` from
`relaxometry.py` (lines 80-131). -/
def transformCoords (coords : List (ℚ × ℚ)) (M : Mat23)
    (input_yx output_yx : Bool) : List (ℚ × ℚ) :=
  let in_coords := if input_yx then coords.map flipPair else coords
  let out_coords := in_coords.map (cvTransformPoint M)
  if output_yx then out_coords.map flipPair else out_coords

/-- `cv2.invertAffineTransform`: the affine inverse of a 2x3 matrix. -/
def invertAffine (M : Mat23) : Mat23 :=
  let det := qsub (qmul M.a M.e) (qmul M.b M.d)
  let ia := qdiv M.e det
  let ib := qneg (qdiv M.b det)
  let id' := qneg (qdiv M.d det)
  let ie := qdiv M.a det
  { a := ia, b := ib, c := qneg (qadd (qmul ia M.c) (qmul ib M.f)),
    d := id', e := ie, f := qneg (qadd (qmul id' M.c) (qmul ie M.f)) }


/-! ### `hazenlib/relaxometry.py`: `ImageStack.template_fit` (lines 217-287)

The source normalises `abs(template_px)` and `abs(target_px)` to 8-bit with
`cv2.normalize(..., 0, 255, NORM_MINMAX, CV_8U)`, initialises the warp to
`np.eye(2, 3)`, and calls `cv2.findTransformECC` with termination criteria
`(EPS | COUNT, 500, 1e-10)`.  The ECC optimiser itself is OpenCV library
code, so it enters the model as an abstract function; the source performs no
error handling, so whatever error the library raises propagates unchanged. -/

/-- Minimum of a rational list (first element on singletons; 0 on empty). -/
def qlistMin (l : List ℚ) : ℚ :=
  l.foldl (fun acc v => if v < acc then v else acc) (l.headD 0)

/-- Maximum of a rational list. -/
def qlistMax (l : List ℚ) : ℚ :=
  l.foldl (fun acc v => if acc < v then v else acc) (l.headD 0)

/-- `cv2.normalize(src, None, 0, 255, NORM_MINMAX, CV_8U)`: min-max scale to
`[0, 255]`, rounded half-to-even and saturated to the 8-bit range.  (When
all pixels are equal the scale divides by zero; the model maps that case to
0 via the `a / 0 = 0` convention.) -/
def cvNormalizeMinMax8U (img : List (List ℚ)) : List (List ℤ) :=
  let flat := img.foldl (fun acc row => acc ++ row) []
  let lo := qlistMin flat
  let hi := qlistMax flat
  img.map (fun row => row.map (fun v =>
    min 255 (max 0 (roundHalfEven (qdiv (qmul (qsub v lo) (qint 255)) (qsub hi lo))))))

/-- Errors on the registration path.  `cvError` is an OpenCV `cv2.error`
propagating out of `cv2.findTransformECC`; `registrationError` is the
failure kind named by the specification and never produced by the code. -/
inductive CvError where
  | cvError (msg : String)
  | registrationError
deriving DecidableEq, Repr

/-- `cv2.TermCriteria`-style pair: iteration cap and convergence epsilon. -/
structure EccCriteria where
  maxCount : ℕ
  epsilon : ℚ
deriving DecidableEq, Repr

/-- `number_of_iterations = 500`, `termination_eps = 1e-10`
(lines 271-274 of `relaxometry.py`). -/
def eccDefaultCriteria : EccCriteria := ⟨500, mkRat 1 10000000000⟩

/-- `np.eye(2, 3)`: the identity warp initialisation (line 275). -/
def eccIdentityWarp : Mat23 := ⟨1, 0, 0, 0, 1, 0⟩

/-- `template_fit` (lines 217-287), with the OpenCV ECC optimiser abstracted
as `ecc`: normalise both images, call the optimiser with the identity warp
and the default criteria, and return its warp matrix; any library error
propagates unchanged (the source has no try/except). -/
def templateFit
    (ecc : List (List ℤ) → List (List ℤ) → Mat23 → EccCriteria
      → Except CvError (ℚ × Mat23))
    (templatePx targetPx : List (List ℚ)) : Except CvError Mat23 :=
  let template8bit := cvNormalizeMinMax8U (templatePx.map (List.map qabs))
  let target8bit := cvNormalizeMinMax8U (targetPx.map (List.map qabs))
  (ecc template8bit target8bit eccIdentityWarp eccDefaultCriteria).map (fun r => r.2)


/-! ### `hazenlib/tasks/acr_uniformity.py`: `uniformity_iterator` (lines 148-175)

For each candidate centre `(row, col)` the source translates the coordinate
set of the small sample mask by `(row - cxy[0] - d_void, col - cxy[1])`,
reads the masked image at the translated coordinates, and records
`np.mean(values[np.nonzero(values)])` if `np.count_nonzero(values)` is not
below `np.count_nonzero(sample_mask)`, else records 0, into
`mean_array[row, col]`.  Numpy integer-array indexing wraps negative indices
and raises `IndexError` out of range; both are modelled by `npGet2`. -/

/-- Numpy-style indexing into a list: negative indices wrap once, anything
else out of range is an `IndexError`. -/
def npGetList {α : Type} (l : List α) (d : α) (i : ℤ) : Except Unit α :=
  if 0 ≤ i ∧ i < (l.length : ℤ) then .ok (l.getD i.toNat d)
  else if -(l.length : ℤ) ≤ i ∧ i < 0 then .ok (l.getD (i + l.length).toNat d)
  else .error ()

/-- Numpy-style 2-D indexing `img[i, j]`. -/
def npGet2 (img : List (List ℚ)) (i j : ℤ) : Except Unit ℚ :=
  match npGetList img [] i with
  | .error e => .error e
  | .ok row => npGetList row 0 j

/-- Map a fallible function over a list, failing on the first error (the
behaviour of numpy fancy indexing with an index array). -/
def exceptMapList {α β : Type} (f : α → Except Unit β) : List α → Except Unit (List β)
  | [] => .ok []
  | a :: t =>
    match f a with
    | .error e => .error e
    | .ok b =>
      match exceptMapList f t with
      | .error e => .error e
      | .ok bs => .ok (b :: bs)

/-- `np.nonzero(sample_mask)`: the true cells in raster order. -/
def maskCoords (m : List (List Bool)) : List Cell :=
  (gridCells m).filter (fun c => maskGet m c)

/-- Grid read with default 0. -/
def gridGet (g : List (List ℚ)) (r c : ℕ) : ℚ := (g.getD r []).getD c 0

/-- `mean_array[row, col] = v`. -/
def setGrid (g : List (List ℚ)) (r c : ℕ) (v : ℚ) : List (List ℚ) :=
  g.set r ((g.getD r []).set c v)

/-- The value `uniformity_iterator` records for one candidate centre:
read the masked image over the translated footprint, then the mean of the
non-zero values when no footprint value is zero or out of the mask count,
else 0 (lines 160-173). -/
def uniformityCandidateValue (maskedImage : List (List ℚ))
    (sampleMask : List (List Bool)) (cx cy dVoid : ℤ) (r c : ℕ) :
    Except Unit ℚ :=
  let coords := maskCoords sampleMask
  match exceptMapList (fun cell =>
    npGet2 maskedImage ((cell.1 : ℤ) + (r : ℤ) - cx - dVoid)
      ((cell.2 : ℤ) + (c : ℤ) - cy)) coords with
  | .error e => .error e
  | .ok values =>
    let nzv := values.filter (fun v => decide (v ≠ 0))
    if nzv.length < coords.length then .ok 0
    else .ok (qdiv (qsum nzv) (qint nzv.length))

/-- `uniformity_iterator`: record the candidate value of every `(row, col)`
of `zip(rows, cols)` into `mean_array`. -/
def uniformityIterator (maskedImage : List (List ℚ))
    (sampleMask : List (List Bool)) (cx cy dVoid : ℤ) :
    List (ℕ × ℕ) → List (List ℚ) → Except Unit (List (List ℚ))
  | [], meanArray => .ok meanArray
  | (r, c) :: rest, meanArray =>
    match uniformityCandidateValue maskedImage sampleMask cx cy dVoid r c with
    | .error e => .error e
    | .ok v =>
      uniformityIterator maskedImage sampleMask cx cy dVoid rest (setGrid meanArray r c v)


/-! ### `hazenlib/tasks/acr_uniformity.py`: `get_integral_uniformity` (lines 81-320)

The live code path: build the small (`base_mask`) and large (`lroi`)
circular masks around `(cxy[0], cxy[1] + d_void)`, mask the image, take the
50th percentile of the non-zero masked values, split into `min_image`
(strictly below the median) and `max_image` (strictly above), run
`uniformity_iterator` for the candidates of each split — both calls write
into the one shared `mean_array` — then `sig_max = np.max(max_data)` and
`sig_min = np.min(min_data[np.nonzero(min_data)])`, and finally
`piu = 100 * (1 - (sig_max - sig_min) / (sig_max + sig_min))`.

`ACRObject.circular_mask` and `ACR_obj.centre` live outside the packaged
sources, so the mask is modelled from the spec; the pixel radii
(`r_large`, `r_small`, `d_void`), which the source derives from the pixel
spacing with irrational `np.ceil(np.sqrt(...))` expressions, enter as
integer parameters. -/

/-- Modelled from the spec: `ACRObject.circular_mask(centre, radius, dims)`
(the `hazenlib/ACRObject.py` module is not among the packaged sources) —
true exactly for pixels whose distance from the centre is at most the
radius (boundary included), with the centre given as `(x, y)` =
`(column, row)` as in the uniformity task's usage. -/
def circularMask (cx cy : ℤ) (radius : ℚ) (rows cols : ℕ) : List (List Bool) :=
  (List.range rows).map (fun (i : ℕ) => (List.range cols).map (fun (j : ℕ) =>
    decide (qadd (qmul (qsub (qint (j : ℤ)) (qint cx)) (qsub (qint (j : ℤ)) (qint cx)))
        (qmul (qsub (qint (i : ℤ)) (qint cy)) (qsub (qint (i : ℤ)) (qint cy)))
      ≤ qmul radius radius)))

/-- Elementwise `mask * img` (a boolean mask acts as 0/1). -/
def gridMul (m : List (List Bool)) (img : List (List ℚ)) : List (List ℚ) :=
  List.zipWith (fun mrow irow => List.zipWith (fun b v => if b then v else 0) mrow irow)
    m img

/-- Elementwise `img * (pred img)`, e.g. `img_masked * (img_masked < h)`. -/
def gridMulMask (g : List (List ℚ)) (p : ℚ → Bool) : List (List ℚ) :=
  g.map (fun row => row.map (fun v => if p v then v else 0))

/-- An `np.zeros(img.shape)` array. -/
def zerosLike (g : List (List ℚ)) : List (List ℚ) :=
  g.map (fun row => row.map (fun _ => 0))

/-- All in-grid cells of a rational grid, raster order. -/
def gridCellsQ (g : List (List ℚ)) : List Cell :=
  (List.range g.length).flatMap
    (fun i => (List.range ((g.getD i []).length)).map (fun j => (i, j)))

/-- `np.nonzero(g)` as raster-order cells. -/
def gridNonzeroCells (g : List (List ℚ)) : List Cell :=
  (gridCellsQ g).filter (fun c => decide (gridGet g c.1 c.2 ≠ 0))

/-- `g[np.nonzero(g)]`: the non-zero values in raster order. -/
def gridNonzeroValues (g : List (List ℚ)) : List ℚ :=
  (gridNonzeroCells g).map (fun c => gridGet g c.1 c.2)

/-- `np.concatenate` of the rows: every grid value in raster order. -/
def gridFlat (g : List (List ℚ)) : List ℚ :=
  g.foldr (fun row acc => row ++ acc) []

/-- Failure modes of the uniformity computation: numpy raises on an empty
percentile or an empty `min`/`max` reduction, and on out-of-range fancy
indexing. -/
inductive UnifError where
  | emptyPercentile
  | emptyReduce
  | indexError
deriving DecidableEq, Repr

/-- Ascending sort of rationals (`np.percentile` sorts its input). -/
def qsortAsc (l : List ℚ) : List ℚ :=
  List.insertionSort (fun a b : ℚ => a ≤ b) l

/-- `np.percentile(l, 50)` with the default linear interpolation: the median
of the sorted values. -/
def percentile50 (l : List ℚ) : Except UnifError ℚ :=
  match qsortAsc l with
  | [] => .error .emptyPercentile
  | x :: xs =>
    let s := x :: xs
    let n := s.length
    .ok (if n % 2 = 1 then s.getD (n / 2) 0
      else qdiv (qadd (s.getD (n / 2 - 1) 0) (s.getD (n / 2) 0)) (qint 2))

/-- `np.max` over a value list; empty reductions raise. -/
def npMax (l : List ℚ) : Except UnifError ℚ :=
  match l with
  | [] => .error .emptyReduce
  | x :: t => .ok (t.foldl (fun acc v => if acc < v then v else acc) x)

/-- `np.min` over a value list; empty reductions raise. -/
def npMin (l : List ℚ) : Except UnifError ℚ :=
  match l with
  | [] => .error .emptyReduce
  | x :: t => .ok (t.foldl (fun acc v => if v < acc then v else acc) x)

/-- `get_integral_uniformity` (the live path of lines 91-320 of
`acr_uniformity.py`), returning `(piu, sig_max, sig_min)` on success.  Note
the two `uniformity_iterator` calls share one `mean_array`, so both sweeps
write into the same array and `min_data`/`max_data` alias it. -/
def getIntegralUniformity (img : List (List ℚ)) (cx cy : ℤ)
    (rLarge rSmall dVoid : ℕ) : Except UnifError (ℚ × ℚ × ℚ) :=
  let rows := img.length
  let cols := (img.headD []).length
  let base_mask := circularMask cx (cy + (dVoid : ℤ)) (mkRat rSmall 1) rows cols
  let lroi := circularMask cx (cy + (dVoid : ℤ)) (mkRat rLarge 1) rows cols
  let img_masked := gridMul lroi img
  match percentile50 (gridNonzeroValues img_masked) with
  | .error e => .error e
  | .ok half_max =>
    let min_image := gridMulMask img_masked (fun v => decide (v < half_max))
    let max_image := gridMulMask img_masked (fun v => decide (half_max < v))
    let mean_array := zerosLike img_masked
    match uniformityIterator min_image base_mask cx cy (dVoid : ℤ)
        (gridNonzeroCells min_image) mean_array with
    | .error _ => .error .indexError
    | .ok arr1 =>
      match uniformityIterator max_image base_mask cx cy (dVoid : ℤ)
          (gridNonzeroCells max_image) arr1 with
      | .error _ => .error .indexError
      | .ok arr2 =>
        match npMax (gridFlat arr2) with
        | .error e => .error e
        | .ok sig_max =>
          match npMin (gridNonzeroValues arr2) with
          | .error e => .error e
          | .ok sig_min =>
            .ok (qmul (qint 100)
                (qsub (qint 1) (qdiv (qsub sig_max sig_min) (qadd sig_max sig_min))),
              sig_max, sig_min)

/-- A constant-intensity (perfectly flat, noiseless) image. -/
def constantGrid (rows cols : ℕ) (v : ℚ) : List (List ℚ) :=
  List.replicate rows (List.replicate cols v)


/-! ### `hazenlib/tasks/acr_ghosting.py`: `get_signal_ghosting` (lines 69-196)

The four cardinal elliptical ROIs (1:4 axis ratio, with an edge-compression
factor when the nominal placement overruns the field of view or the phantom)
and the large central ROI are built on a 1-indexed meshgrid
(`np.linspace(1, dims, dims)`), means are taken of the image over each mask
footprint, and the result is
`np.round(100 * |((n + s) - (w + e)) / (2 * large)|, 3)`.

The phantom mask and its integer centroid come from `centroid_com`, whose
area-opening and convex hull are skimage library calls; they enter the model
as the parameters `mask` and `(cxy0, cxy1) = (mean column, mean row)`.  The
short-axis diameter `sad = 2 * ceil(sqrt(1000 / 4 pi) / res) ` involves an
irrational square root and enters as the parameter `sad`.  The model covers
the square images the task is used on (`dims[0] = dims[1]`), for which
numpy's `meshgrid` shape transposition is the identity. -/

/-- Ceiling of a rational. -/
def qceil (x : ℚ) : ℤ := -(qfloor (qneg x))

/-- `np.sum(mask, 0)[j] > 0`: column `j` contains a true cell. -/
def colAny (m : List (List Bool)) (j : ℕ) : Bool :=
  m.any (fun row => row.getD j false)

/-- `np.sum(mask, 1)[i] > 0`: row `i` contains a true cell. -/
def rowAny (m : List (List Bool)) (i : ℕ) : Bool :=
  (m.getD i []).any (fun b => b)

/-- Failure modes on the ghosting path: `argwhere(...)[0]` on an empty mask
raises, and `np.mean` of an empty footprint yields NaN (modelled as an
error value). -/
inductive GhostError where
  | emptyMask
  | emptyMean
deriving DecidableEq, Repr

/-- First element of a list as an `Except` (`np.argwhere(...)[0]`). -/
def firstE {α : Type} (l : List α) : Except GhostError α :=
  match l with
  | [] => .error .emptyMask
  | x :: _ => .ok x

/-- Last element of a list as an `Except` (`np.argwhere(...)[-1]`). -/
def lastE {α : Type} (l : List α) : Except GhostError α :=
  match l.reverse with
  | [] => .error .emptyMask
  | x :: _ => .ok x

/-- `max(diffs, key=abs)` for a two-element list: the first element on
ties. -/
def pickDiff (d0 d1 : ℚ) : ℚ := if qabs d1 ≤ qabs d0 then d0 else d1

/-- The ellipse compression factor `(sad/2) / (sad/2 - abs(diff))`. -/
def scaleFactor (halfSad dmax : ℚ) : ℚ := qdiv halfSad (qsub halfSad (qabs dmax))

/-- An east/west ellipse mask on the 1-indexed meshgrid:
`((y - c0) / (4 f))^2 + ((x - c1) * f)^2 <= r^2` with `x = j + 1`,
`y = i + 1`. -/
def ellipseMaskH (N : ℕ) (c0 c1 f r : ℚ) : List (List Bool) :=
  (List.range N).map (fun (i : ℕ) => (List.range N).map (fun (j : ℕ) =>
    let dy := qdiv (qsub (qint ((i : ℤ) + 1)) c0) (qmul (qint 4) f)
    let dx := qmul (qsub (qint ((j : ℤ) + 1)) c1) f
    decide (qadd (qmul dy dy) (qmul dx dx) ≤ qmul r r)))

/-- A north/south ellipse mask:
`((y - c0) * f)^2 + ((x - c1) / (4 f))^2 <= r^2`. -/
def ellipseMaskV (N : ℕ) (c0 c1 f r : ℚ) : List (List Bool) :=
  (List.range N).map (fun (i : ℕ) => (List.range N).map (fun (j : ℕ) =>
    let dy := qmul (qsub (qint ((i : ℤ) + 1)) c0) f
    let dx := qdiv (qsub (qint ((j : ℤ) + 1)) c1) (qmul (qint 4) f)
    decide (qadd (qmul dy dy) (qmul dx dx) ≤ qmul r r)))

/-- The large central ROI
`(x - cxy[0])^2 + (y - cxy[1] - 5/res[1])^2 <= r_large^2` with
`r_large = ceil(80 / res[0])`. -/
def lroiMask (N : ℕ) (res0 res1 : ℚ) (cxy0 cxy1 : ℤ) : List (List Bool) :=
  let rLarge := qint (qceil (qdiv (qint 80) res0))
  (List.range N).map (fun (i : ℕ) => (List.range N).map (fun (j : ℕ) =>
    let dx := qsub (qint ((j : ℤ) + 1)) (qint cxy0)
    let dy := qsub (qsub (qint ((i : ℤ) + 1)) (qint cxy1)) (qdiv (qint 5) res1)
    decide (qadd (qmul dx dx) (qmul dy dy) ≤ qmul rLarge rLarge)))

/-- The image values over a boolean mask footprint,
`img[np.nonzero(mask)]`. -/
def maskValues (img : List (List ℚ)) (m : List (List Bool)) : List ℚ :=
  (maskCoords m).map (fun c => gridGet img c.1 c.2)

/-- `np.mean` of a value list (NaN on an empty list, modelled as an
error). -/
def npMeanE (l : List ℚ) : Except GhostError ℚ :=
  match l with
  | [] => .error .emptyMean
  | _ => .ok (qdiv (qsum l) (qint l.length))

/-- The five ROI means of `get_signal_ghosting` (lines 76-153):
`(west, east, north, south, large)`. -/
def ghostingMeans (img : List (List ℚ)) (res0 res1 : ℚ) (mask : List (List Bool))
    (cxy0 cxy1 : ℤ) (sad : ℚ) : Except GhostError (ℚ × ℚ × ℚ × ℚ × ℚ) :=
  let N := img.length
  let halfSad := qdiv sad (qint 2)
  let rEll := qdiv (qint 10) res0
  match firstE ((List.range N).filter (fun j => colAny mask j)) with
  | .error e => .error e
  | .ok w_point =>
    let w_c0 := qint cxy1
    let w_c1 := qint ((w_point / 2 : ℕ) : ℤ)
    let left_fov := qsub (qsub w_c1 halfSad) (qint 5)
    let centre_left := qadd (qadd w_c1 halfSad) (qint 5)
    let w_factor := if left_fov < 0 ∨ qint (w_point : ℤ) < centre_left then
        scaleFactor halfSad (pickDiff left_fov (qsub centre_left (qint (w_point : ℤ))))
      else 1
    let w_ellipse := ellipseMaskH N w_c0 w_c1 w_factor rEll
    match lastE ((List.range N).filter (fun j => colAny mask j)) with
    | .error e => .error e
    | .ok e_point =>
      let e_c0 := qint cxy1
      let e_c1 := qint ((e_point : ℤ) + qceil (qdiv (qint ((N : ℤ) - e_point)) (qint 2)))
      let right_fov := qadd (qadd e_c1 halfSad) (qint 5)
      let centre_right := qsub (qsub e_c1 halfSad) (qint 5)
      let e_factor := if qint ((N : ℤ) - 1) < right_fov ∨ centre_right < qint (e_point : ℤ)
        then
          scaleFactor halfSad (pickDiff (qsub (qint ((N : ℤ) - 1)) right_fov)
            (qsub centre_right (qint (e_point : ℤ))))
        else 1
      let e_ellipse := ellipseMaskH N e_c0 e_c1 e_factor rEll
      match firstE ((List.range N).filter (fun i => rowAny mask i)) with
      | .error e => .error e
      | .ok n_point =>
        let n_c0 := qint (roundHalfEven (qdiv (qint (n_point : ℤ)) (qint 2)))
        let n_c1 := qint cxy0
        let top_fov := qsub (qsub n_c0 halfSad) (qint 5)
        let centre_top := qadd (qadd n_c0 halfSad) (qint 5)
        let n_factor := if top_fov < 0 ∨ qint (n_point : ℤ) < centre_top then
            scaleFactor halfSad (pickDiff top_fov (qsub centre_top (qint (n_point : ℤ))))
          else 1
        let n_ellipse := ellipseMaskV N n_c0 n_c1 n_factor rEll
        match lastE ((List.range N).filter (fun i => rowAny mask i)) with
        | .error e => .error e
        | .ok s_point =>
          let s_c0 := qint ((s_point : ℤ)
            + roundHalfEven (qdiv (qint ((N : ℤ) - s_point)) (qint 2)))
          let s_c1 := qint cxy0
          let bottom_fov := qadd (qadd s_c0 halfSad) (qint 5)
          let centre_bottom := qsub (qsub s_c0 halfSad) (qint 5)
          let s_factor := if qint ((N : ℤ) - 1) < bottom_fov
              ∨ centre_bottom < qint (s_point : ℤ) then
              scaleFactor halfSad (pickDiff (qsub (qint ((N : ℤ) - 1)) bottom_fov)
                (qsub centre_bottom (qint (s_point : ℤ))))
            else 1
          let s_ellipse := ellipseMaskV N s_c0 s_c1 s_factor rEll
          match npMeanE (maskValues img (lroiMask N res0 res1 cxy0 cxy1)) with
          | .error e => .error e
          | .ok large_val =>
            match npMeanE (maskValues img w_ellipse) with
            | .error e => .error e
            | .ok w_val =>
              match npMeanE (maskValues img e_ellipse) with
              | .error e => .error e
              | .ok e_val =>
                match npMeanE (maskValues img n_ellipse) with
                | .error e => .error e
                | .ok n_val =>
                  match npMeanE (maskValues img s_ellipse) with
                  | .error e => .error e
                  | .ok s_val => .ok (w_val, e_val, n_val, s_val, large_val)

/-- The unrounded percent-signal-ghosting metric
`100 * |((n + s) - (w + e)) / (2 * large)|` (lines 155-156). -/
def psgRaw (w e n s l : ℚ) : ℚ :=
  qmul (qint 100) (qabs (qdiv (qsub (qadd n s) (qadd w e)) (qmul (qint 2) l)))

/-- `get_signal_ghosting` (lines 69-196): the metric, rounded to 3 decimals
by `np.round(psg, 3)` (line 158). -/
def getSignalGhosting (img : List (List ℚ)) (res0 res1 : ℚ)
    (mask : List (List Bool)) (cxy0 cxy1 : ℤ) (sad : ℚ) : Except GhostError ℚ :=
  match ghostingMeans img res0 res1 mask cxy0 cxy1 sad with
  | .error e => .error e
  | .ok (w, e, n, s, l) => .ok (roundTo 3 (psgRaw w e n s l))


/-- A 32x32 boolean phantom mask: the square with rows and columns
12..17. -/
def ghostPhantomMask : List (List Bool) :=
  (List.range 32).map (fun (i : ℕ) => (List.range 32).map (fun (j : ℕ) =>
    decide (12 ≤ i ∧ i ≤ 17 ∧ 12 ≤ j ∧ j ≤ 17)))

/-- The matching image: intensity 100 on the phantom square, zero signal
everywhere outside the phantom mask. -/
def ghostFlatImage : List (List ℚ) :=
  (List.range 32).map (fun (i : ℕ) => (List.range 32).map (fun (j : ℕ) =>
    if 12 ≤ i ∧ i ≤ 17 ∧ 12 ≤ j ∧ j ≤ 17 then 100 else 0))

/-- The same image with one extra intensity-1 pixel at (13, 4), inside the
west ellipse footprint and outside every other ROI. -/
def ghostSpikeImage : List (List ℚ) :=
  (List.range 32).map (fun (i : ℕ) => (List.range 32).map (fun (j : ℕ) =>
    if 12 ≤ i ∧ i ≤ 17 ∧ 12 ≤ j ∧ j ≤ 17 then 100
    else if i = 13 ∧ j = 4 then 1 else 0))


/-! ### `hazenlib/slice_width.py`: `fit_trapezoid` (lines 352-466)

`get_initial_trapezoid_fit_and_coefficients` picks `(n_ramp, n_plateau)`
from the slice thickness (3 or 5; anything else leaves them `None` and
crashes), centres the trapezoid at the rounded median index of the samples
below the profile mean, derives the baselines so the total length matches,
and sets the amplitude to `percentile(profile, 5) - percentile(profile, 95)`.

`fit_trapezoid` then runs a coordinate-descent loop: passes over 14
perturbations, accepting one exactly when its error (sum of squared
residuals against `profile_interpolated`!) is strictly below the tracked
`current_error` (whose *initial* value is computed against
`profile_corrected_interpolated` instead, line 388).  On acceptance the
source stores `trapezoid_fit_coefficients` only `if i > 6` — an off-by-one,
since perturbation 6 modifies the trapezoid — otherwise it stores the
baseline coefficients.  The loop has no iteration cap (`j` is counted but
never checked) and the code contains no `FitDivergenceError`; the only exit
is a full pass with zero accepted perturbations.  The unbounded `while` is
modelled with fuel: exhausting the fuel yields `.ok none`, not an error. -/

/-- Failure modes of `fit_trapezoid`.  `fitDivergenceError` is named by the
specification and never produced by the code. -/
inductive FitError where
  | shapeMismatch
  | badThickness
  | emptyMedian
  | emptyPercentile
  | fitDivergenceError
deriving DecidableEq, Repr

/-- `np.poly1d([c0, c1, c2])(x) = c0 x^2 + c1 x + c2`. -/
def polyval3 (b : ℚ × ℚ × ℚ) (x : ℚ) : ℚ :=
  qadd (qadd (qmul b.1 (qmul x x)) (qmul b.2.1 x)) b.2.2

/-- `np.percentile(l, q)` with numpy's default linear interpolation. -/
def percentileQ (l : List ℚ) (q : ℚ) : Except FitError ℚ :=
  match qsortAsc l with
  | [] => .error .emptyPercentile
  | x :: xs =>
    let s := x :: xs
    let n := s.length
    let pos := qdiv (qmul (qint ((n : ℤ) - 1)) q) (qint 100)
    let lo := (qfloor pos).toNat
    let vlo := s.getD lo 0
    let vhi := s.getD (lo + 1) vlo
    .ok (qadd vlo (qmul (qsub pos (qint (qfloor pos))) (qsub vhi vlo)))

/-- Elementwise sum of two equal-length arrays; numpy raises on a shape
mismatch. -/
def addLists (a b : List ℚ) : Except FitError (List ℚ) :=
  if a.length = b.length then .ok (List.zipWith qadd a b) else .error .shapeMismatch

/-- `sum((a - b) ** 2)` for equal-length arrays; numpy raises on a shape
mismatch. -/
def ssdE (a b : List ℚ) : Except FitError ℚ :=
  if a.length = b.length then
    .ok (qsum (List.zipWith (fun x y => qmul (qsub x y) (qsub x y)) a b))
  else .error .shapeMismatch

/-- The synthesised trapezoid signal of a coefficient record. -/
def trapSignal (c : TrapCoeffs) : List ℚ := (trapezoidOf c).1

/-- `get_initial_trapezoid_fit_and_coefficients` (lines 352-375). -/
def getInitial (profile : List ℚ) (sliceThickness : ℚ) :
    Except FitError (List ℚ × TrapCoeffs) :=
  match (if sliceThickness = 3 then some ((7 : ℤ), (32 : ℤ))
    else if sliceThickness = 5 then some ((47 : ℤ), (55 : ℤ)) else none) with
  | none => .error .badThickness
  | some (nRamp, nPlateau) =>
    let n := profile.length
    let mean := qdiv (qsum profile) (qint (n : ℤ))
    match (List.range n).filter (fun (i : ℕ) => decide (profile.getD i 0 < mean)) with
    | [] => .error .emptyMedian
    | i0 :: irest =>
      let centre := roundHalfEven (medianOfSorted (i0 :: irest))
      let nLb := centre - roundHalfEven (qdiv (qint nPlateau) (qint 2)) - nRamp - 1
      let nRb := (n : ℤ) - nLb - 2 * nRamp - nPlateau
      match percentileQ profile (qint 5) with
      | .error e => .error e
      | .ok p5 =>
        match percentileQ profile (qint 95) with
        | .error e => .error e
        | .ok p95 =>
          let c : TrapCoeffs := ⟨nRamp, nPlateau, nLb, nRb, qsub p5 p95⟩
          .ok (trapSignal c, c)

/-- The inputs `fit_trapezoid` reads from the `baseline_correction`
dictionary. -/
structure CorrectedProfiles where
  xInterpolated : List ℚ
  profileInterpolated : List ℚ
  profileCorrectedInterpolated : List ℚ
  baselineCoeffs : ℚ × ℚ × ℚ
deriving DecidableEq, Repr

/-- The state of the coordinate-descent search: baseline coefficients,
trapezoid coefficients and the tracked `current_error`. -/
structure FitState where
  base : ℚ × ℚ × ℚ
  trap : TrapCoeffs
  err : ℚ
deriving DecidableEq, Repr

/-- The additive baseline perturbations, cases `i = 0..5` of the source
(lines 411-423); other `i` leave the coefficients unchanged. -/
def perturbBase (i : ℕ) (b : ℚ × ℚ × ℚ) : ℚ × ℚ × ℚ :=
  if i = 0 then (qsub b.1 (mkRat 1 10000), b.2.1, b.2.2)
  else if i = 1 then (qadd b.1 (mkRat 1 10000), b.2.1, b.2.2)
  else if i = 2 then (b.1, qsub b.2.1 (mkRat 1 1000), b.2.2)
  else if i = 3 then (b.1, qadd b.2.1 (mkRat 1 1000), b.2.2)
  else if i = 4 then (b.1, b.2.1, qsub b.2.2 (mkRat 1 10))
  else if i = 5 then (b.1, b.2.1, qadd b.2.2 (mkRat 1 10))
  else b

/-- The trapezoid perturbations, cases `i = 6..13` of the source
(lines 424-454); other `i` leave the coefficients unchanged. -/
def perturbTrap (i : ℕ) (t : TrapCoeffs) : TrapCoeffs :=
  if i = 6 then
    ⟨t.nRamp - 1, t.nPlateau, t.nLeftBaseline + 1, t.nRightBaseline + 1, t.plateauAmplitude⟩
  else if i = 7 then
    ⟨t.nRamp + 1, t.nPlateau, t.nLeftBaseline - 1, t.nRightBaseline - 1, t.plateauAmplitude⟩
  else if i = 8 then
    ⟨t.nRamp, t.nPlateau - 2, t.nLeftBaseline + 1, t.nRightBaseline + 1, t.plateauAmplitude⟩
  else if i = 9 then
    ⟨t.nRamp, t.nPlateau + 2, t.nLeftBaseline - 1, t.nRightBaseline - 1, t.plateauAmplitude⟩
  else if i = 10 then
    ⟨t.nRamp, t.nPlateau, t.nLeftBaseline - 1, t.nRightBaseline + 1, t.plateauAmplitude⟩
  else if i = 11 then
    ⟨t.nRamp, t.nPlateau, t.nLeftBaseline + 1, t.nRightBaseline - 1, t.plateauAmplitude⟩
  else if i = 12 then
    ⟨t.nRamp, t.nPlateau, t.nLeftBaseline, t.nRightBaseline,
      qsub t.plateauAmplitude (mkRat 1 10)⟩
  else if i = 13 then
    ⟨t.nRamp, t.nPlateau, t.nLeftBaseline, t.nRightBaseline,
      qadd t.plateauAmplitude (mkRat 1 10)⟩
  else t

/-- `get_error(base, trap)` (lines 390-398): sum of squared residuals of
`profile_interp` against the synthesised baseline-plus-trapezoid signal. -/
def getError (xi pi : List ℚ) (b : ℚ × ℚ × ℚ) (t : TrapCoeffs) : Except FitError ℚ :=
  match addLists (xi.map (polyval3 b)) (trapSignal t) with
  | .error e => .error e
  | .ok synth => ssdE pi synth

/-- One perturbation `i` of the inner `for` loop (lines 407-464): accept
exactly when `new_error < current_error`; on acceptance store the trapezoid
coefficients only `if i > 6` (the source's off-by-one), else the baseline
coefficients, and always update the tracked error. -/
def passStep (xi pi : List ℚ) (st : FitState) (i : ℕ) :
    Except FitError (FitState × Bool) :=
  let b' := perturbBase i st.base
  let t' := perturbTrap i st.trap
  match getError xi pi b' t' with
  | .error e => .error e
  | .ok newErr =>
    if newErr < st.err then
      if 6 < i then .ok (⟨st.base, t', newErr⟩, true)
      else .ok (⟨b', st.trap, newErr⟩, true)
    else .ok (st, false)

/-- Run perturbations from a list, accumulating the `cont` flag. -/
def onePassAux (xi pi : List ℚ) : List ℕ → FitState → Bool
    → Except FitError (FitState × Bool)
  | [], st, acc => .ok (st, acc)
  | i :: rest, st, acc =>
    match passStep xi pi st i with
    | .error e => .error e
    | .ok (st', accepted) => onePassAux xi pi rest st' (acc || accepted)

/-- One full pass over the 14 perturbations. -/
def onePass (xi pi : List ℚ) (st : FitState) : Except FitError (FitState × Bool) :=
  onePassAux xi pi (List.range 14) st false

/-- The `while cont == 1` loop (lines 400-464), with fuel standing in for
the source's unbounded iteration: exhausted fuel is `.ok none` (the source
would simply keep looping — it has no cap and raises nothing). -/
def fitLoop (xi pi : List ℚ) : ℕ → FitState
    → Except FitError (Option (TrapCoeffs × (ℚ × ℚ × ℚ)))
  | 0, _ => .ok none
  | fuel + 1, st =>
    match onePass xi pi st with
    | .error e => .error e
    | .ok (st', true) => fitLoop xi pi fuel st'
    | .ok (st', false) => .ok (some (st'.trap, st'.base))

/-- `fit_trapezoid(profiles, slice_thickness)` (lines 378-466).  Note the
initial `current_error` is computed against
`profile_corrected_interpolated` (line 388) while `get_error` uses
`profile_interpolated`. -/
def fitTrapezoid (p : CorrectedProfiles) (sliceThickness : ℚ) (fuel : ℕ) :
    Except FitError (Option (TrapCoeffs × (ℚ × ℚ × ℚ))) :=
  match getInitial p.profileCorrectedInterpolated sliceThickness with
  | .error e => .error e
  | .ok (trapInit, tcoeffs) =>
    let bline := p.xInterpolated.map (polyval3 p.baselineCoeffs)
    match addLists bline trapInit with
    | .error e => .error e
    | .ok synth0 =>
      match ssdE p.profileCorrectedInterpolated synth0 with
      | .error e => .error e
      | .ok cur0 =>
        fitLoop p.xInterpolated p.profileInterpolated fuel
          ⟨p.baselineCoeffs, tcoeffs, cur0⟩

/-- Lines 497-502 of `slice_width.py` for one ramp: read `fwhm` off the
fitted model via `trapezoid(*coeffs)`, then
`default = fwhm * sample_spacing * pixel_size * tan(11.3 deg)` and
`geometry_corrected = default / correction_coefficient`.  The transcendental
`tan(11.3*pi/180)` enters only as a scalar factor and is passed as the
parameter `tanTheta`. -/
def sliceWidthFromFit (c : TrapCoeffs) (pixelSize tanTheta corrCoeff : ℚ) : ℚ × ℚ :=
  let fwhm := (trapezoidOf c).2
  let d := qmul (qmul (qmul (qint fwhm) sampleSpacing) pixelSize) tanTheta
  (d, qdiv d corrCoeff)


theorem qadd_eq (a b : ℚ) : qadd a b = a + b := by
  rw [qadd, Rat.mkRat_eq_div, Rat.add_def]
  rw [Rat.normalize_eq_mkRat, Rat.mkRat_eq_div]

theorem qneg_eq (a : ℚ) : qneg a = -a := by
  rw [qneg, Rat.mkRat_eq_div]
  push_cast
  rw [neg_div, Rat.num_div_den]

theorem qsub_eq (a b : ℚ) : qsub a b = a - b := by
  rw [qsub, qadd_eq, qneg_eq, sub_eq_add_neg]

theorem qmul_eq (a b : ℚ) : qmul a b = a * b := by
  rw [qmul, Rat.mkRat_eq_div, Rat.mul_def]
  rw [Rat.normalize_eq_mkRat, Rat.mkRat_eq_div]

theorem qdiv_eq (a b : ℚ) : qdiv a b = a / b := by
  have ha : (a : ℚ) = (a.num : ℚ) / (a.den : ℚ) := (Rat.num_div_den a).symm
  have hb : (b : ℚ) = (b.num : ℚ) / (b.den : ℚ) := (Rat.num_div_den b).symm
  have hda : (a.den : ℚ) ≠ 0 := by
    exact_mod_cast a.den_nz
  have hdb : (b.den : ℚ) ≠ 0 := by
    exact_mod_cast b.den_nz
  rw [qdiv, Rat.mkRat_eq_div]
  conv_rhs => rw [ha, hb]
  rcases lt_trichotomy b.num 0 with h | h | h
  · have hnum : (b.num : ℚ) ≠ 0 := by
      exact_mod_cast h.ne
    rw [Int.sign_eq_neg_one_of_neg h]
    push_cast
    rw [Int.cast_natAbs, abs_of_neg h]
    push_cast
    field_simp
  · simp [h]
  · have hnum : (b.num : ℚ) ≠ 0 := by
      exact_mod_cast h.ne'
    rw [Int.sign_eq_one_of_pos h]
    push_cast
    rw [Int.cast_natAbs, abs_of_pos h]
    field_simp

theorem qabs_eq (a : ℚ) : qabs a = |a| := by
  rw [qabs]
  rcases lt_or_le a 0 with h | h
  · rw [if_pos h, qneg_eq, abs_of_neg h]
  · rw [if_neg (not_lt.mpr h), abs_of_nonneg h]

theorem qsum_eq (l : List ℚ) : qsum l = l.sum := by
  induction l with
  | nil => rfl
  | cons a t ih => rw [qsum, List.foldr_cons, qadd_eq, List.sum_cons, ← qsum, ih]

theorem qint_eq (z : ℤ) : qint z = (z : ℚ) := by
  rw [qint, Rat.mkRat_eq_div]
  norm_num

theorem qfloor_eq (x : ℚ) : qfloor x = ⌊x⌋ := by
  rw [qfloor, Rat.floor_def]
  rw [Int.fdiv_eq_ediv _ (by exact_mod_cast Nat.zero_le x.den)]

theorem linspace_length (a b : ℚ) (num : ℕ) : (linspace a b num).length = num := by
  rw [linspace]
  split
  · rename_i h
    rw [h]
    rfl
  · rw [List.length_map, List.length_range]

/-- **C10.** `trapezoid` is total over all integer segment lengths and any
rational amplitude: every segment of length `< 1` contributes the empty
segment, the signal length is the sum of the lengths of the included
segments, and the returned `fwhm` is `n_plateau + n_ramp` even when zero or
negative. -/
theorem trapezoid_total (r p lb rb : ℤ) (amp : ℚ) :
    (trapezoid r p lb rb amp).1.length
      = (if 1 ≤ lb then lb.toNat else 0) + 2 * (if 1 ≤ r then r.toNat else 0)
        + (if 1 ≤ p then p.toNat else 0) + (if 1 ≤ rb then rb.toNat else 0)
    ∧ (trapezoid r p lb rb amp).2 = p + r := by
  constructor
  · simp only [trapezoid]
    split_ifs <;>
      simp only [List.length_append, List.length_replicate, List.length_nil,
        linspace_length] <;>
      omega
  · rfl

/-- **C7.** The width read off a fitted trapezoid model is
`plateau + ramp` (the `fwhm` of `trapezoid(*coeffs)`), and the physical
slice width is that value times the sample spacing (0.25), the pixel size
and the tangent of the 11.3-degree ramp angle, optionally divided by the
distortion-correction coefficient derived from measured horizontal rod
distances against the 120 mm nominal separation. -/
theorem sliceWidth_formula (c : TrapCoeffs) (ps tanTheta coeff h0 h1 h2 : ℚ) :
    (sliceWidthFromFit c ps tanTheta coeff).1
      = ((c.nPlateau : ℚ) + (c.nRamp : ℚ)) * sampleSpacing * ps * tanTheta
    ∧ (sliceWidthFromFit c ps tanTheta coeff).2
      = ((c.nPlateau : ℚ) + (c.nRamp : ℚ)) * sampleSpacing * ps * tanTheta / coeff
    ∧ (getRodDistortionCorrectionCoefficients h0 h1 h2).1
      = roundTo 4 ((h1 + h2) / 2 / 120) := by
  refine ⟨?_, ?_, ?_⟩
  · show qmul (qmul (qmul (qint ((trapezoidOf c).2)) sampleSpacing) ps) tanTheta = _
    rw [qmul_eq, qmul_eq, qmul_eq, qint_eq]
    have h2 : (trapezoidOf c).2 = c.nPlateau + c.nRamp := rfl
    rw [h2]
    push_cast
    ring
  · show qdiv (qmul (qmul (qmul (qint ((trapezoidOf c).2)) sampleSpacing) ps) tanTheta) coeff = _
    rw [qdiv_eq, qmul_eq, qmul_eq, qmul_eq, qint_eq]
    have h2 : (trapezoidOf c).2 = c.nPlateau + c.nRamp := rfl
    rw [h2]
    push_cast
    ring_nf
  · show roundTo 4 (qdiv (qdiv (qadd h1 h2) (qint 2)) (qint 120)) = _
    rw [qdiv_eq, qdiv_eq, qadd_eq, qint_eq, qint_eq]
    norm_num

/-- Two lists that are permutations of each other, both sorted by a key, with
pairwise-distinct keys, are equal. -/
theorem sorted_key_perm_eq {α : Type} (key : α → ℚ) :
    ∀ {l₁ l₂ : List α}, l₁.Perm l₂
      → l₁.Pairwise (fun a b => key a ≤ key b)
      → l₂.Pairwise (fun a b => key a ≤ key b)
      → (l₁.map key).Nodup → l₁ = l₂ := by
  intro l₁
  induction l₁ with
  | nil =>
    intro l₂ hp _ _ _
    exact (List.Perm.nil_eq hp).symm ▸ rfl
  | cons a t ih =>
    intro l₂ hp hs₁ hs₂ hnd
    cases l₂ with
    | nil => exact absurd hp (by simp)
    | cons b t₂ =>
      have hab : a = b := by
        have ha2 : a ∈ b :: t₂ := hp.mem_iff.mp (List.mem_cons_self a t)
        have hb1 : b ∈ a :: t := hp.symm.mem_iff.mp (List.mem_cons_self b t₂)
        rcases List.mem_cons.mp ha2 with h | ha2t
        · exact h
        rcases List.mem_cons.mp hb1 with h | hb1t
        · exact h.symm
        have h1 : key a ≤ key b := (List.pairwise_cons.mp hs₁).1 b hb1t
        have h2 : key b ≤ key a := (List.pairwise_cons.mp hs₂).1 a ha2t
        have hk : key a = key b := le_antisymm h1 h2
        have : key a ∈ t.map key := hk ▸ List.mem_map_of_mem key hb1t
        exact absurd this ((List.nodup_cons.mp hnd).1)
      subst hab
      have hpt : t.Perm t₂ := hp.cons_inv
      have := ih hpt (List.pairwise_cons.mp hs₁).2 (List.pairwise_cons.mp hs₂).2
        ((List.nodup_cons.mp hnd).2)
      rw [this]

theorem sortedByY_perm (l : List Rod) : (sortedByY l).Perm l :=
  List.perm_insertionSort _ l

theorem sortedByX_perm (l : List Rod) : (sortedByX l).Perm l :=
  List.perm_insertionSort _ l

theorem sortedByY_sorted (l : List Rod) :
    (sortedByY l).Pairwise (fun a b => a.y ≤ b.y) :=
  List.sorted_insertionSort _ l

theorem sortedByX_sorted (l : List Rod) :
    (sortedByX l).Pairwise (fun a b => a.x ≤ b.x) :=
  List.sorted_insertionSort _ l

/-- If two rod lists are permutations of each other and the y keys are
pairwise distinct, sorting by y gives the same list. -/
theorem sortedByY_congr {l₁ l₂ : List Rod} (hp : l₁.Perm l₂)
    (hnd : (l₁.map Rod.y).Nodup) : sortedByY l₁ = sortedByY l₂ :=
  sorted_key_perm_eq Rod.y ((sortedByY_perm l₁).trans (hp.trans (sortedByY_perm l₂).symm))
    (sortedByY_sorted l₁) (sortedByY_sorted l₂)
    ((((sortedByY_perm l₁).map Rod.y).nodup_iff).mpr hnd)

/-- If two rod lists are permutations of each other and the x keys are
pairwise distinct, sorting by x gives the same list. -/
theorem sortedByX_congr {l₁ l₂ : List Rod} (hp : l₁.Perm l₂)
    (hnd : (l₁.map Rod.x).Nodup) : sortedByX l₁ = sortedByX l₂ :=
  sorted_key_perm_eq Rod.x ((sortedByX_perm l₁).trans (hp.trans (sortedByX_perm l₂).symm))
    (sortedByX_sorted l₁) (sortedByX_sorted l₂)
    ((((sortedByX_perm l₁).map Rod.x).nodup_iff).mpr hnd)

/-- **C3.** For nine rod centroids forming three rows of three (rows strictly
separated in y, with pairwise-distinct y coordinates, and pairwise-distinct
x coordinates within each row — y grows downwards, so `bottom` is the row
with the largest y), `sort_rods`: (i) sorts each row left-to-right by x and
concatenates bottom row first, then middle, then top; and (ii) is a
deterministic function of the unordered centroid set — any permutation of
the input yields the same output list. -/
theorem sortRods_det_rows
    (top middle bottom l : List Rod)
    (ht : top.length = 3) (hm : middle.length = 3) (hb : bottom.length = 3)
    (hperm : l.Perm (top ++ middle ++ bottom))
    (h_tm : ∀ u ∈ top, ∀ v ∈ middle, u.y < v.y)
    (h_tb : ∀ u ∈ top, ∀ v ∈ bottom, u.y < v.y)
    (h_mb : ∀ u ∈ middle, ∀ v ∈ bottom, u.y < v.y)
    (hynd : (l.map Rod.y).Nodup)
    (hxt : (top.map Rod.x).Nodup) (hxm : (middle.map Rod.x).Nodup)
    (hxb : (bottom.map Rod.x).Nodup) :
    sortRods l = sortedByX bottom ++ sortedByX middle ++ sortedByX top
    ∧ ∀ l', l.Perm l' → sortRods l' = sortRods l := by
  have pt := sortedByY_perm top
  have pm := sortedByY_perm middle
  have pb := sortedByY_perm bottom
  have hYsplit : sortedByY l = sortedByY top ++ sortedByY middle ++ sortedByY bottom := by
    apply sorted_key_perm_eq Rod.y
    · exact (sortedByY_perm l).trans (hperm.trans ((pt.symm.append pm.symm).append pb.symm))
    · exact sortedByY_sorted l
    · rw [List.pairwise_append, List.pairwise_append]
      refine ⟨⟨sortedByY_sorted top, sortedByY_sorted middle, ?_⟩,
        sortedByY_sorted bottom, ?_⟩
      · intro u hu v hv
        exact le_of_lt (h_tm u (pt.mem_iff.mp hu) v (pm.mem_iff.mp hv))
      · intro u hu v hv
        rcases List.mem_append.mp hu with h | h
        · exact le_of_lt (h_tb u (pt.mem_iff.mp h) v (pb.mem_iff.mp hv))
        · exact le_of_lt (h_mb u (pm.mem_iff.mp h) v (pb.mem_iff.mp hv))
    · exact (((sortedByY_perm l).map Rod.y).nodup_iff).mpr hynd
  have hlA : (sortedByY top).length = 3 := pt.length_eq.trans ht
  have hlB : (sortedByY middle).length = 3 := pm.length_eq.trans hm
  have hlAB : (sortedByY top ++ sortedByY middle).length = 6 := by
    rw [List.length_append, hlA, hlB]
  have hLen : (sortedByY l).length = 9 := by
    rw [hYsplit, List.length_append, List.length_append, hlA, hlB,
      pb.length_eq.trans hb]
  have htake3 : (sortedByY l).take 3 = sortedByY top := by
    rw [hYsplit, List.append_assoc]
    exact List.take_left' hlA
  have hmid3 : ((sortedByY l).drop 3).take 3 = sortedByY middle := by
    rw [hYsplit, List.append_assoc, List.drop_left' hlA]
    exact List.take_left' hlB
  have hbot3 : (sortedByY l).drop ((sortedByY l).length - 3) = sortedByY bottom := by
    rw [hLen]
    show (sortedByY l).drop 6 = sortedByY bottom
    rw [hYsplit]
    exact List.drop_left' hlAB
  constructor
  · show sortedByX ((sortedByY l).drop ((sortedByY l).length - 3))
      ++ sortedByX (((sortedByY l).drop 3).take 3)
      ++ sortedByX ((sortedByY l).take 3) = _
    rw [htake3, hmid3, hbot3]
    rw [sortedByX_congr pb ((pb.map Rod.x).nodup_iff.mpr hxb),
      sortedByX_congr pm ((pm.map Rod.x).nodup_iff.mpr hxm),
      sortedByX_congr pt ((pt.map Rod.x).nodup_iff.mpr hxt)]
  · intro l' hp'
    have hyy : sortedByY l' = sortedByY l :=
      sortedByY_congr hp'.symm ((hp'.map Rod.y).nodup_iff.mp hynd)
    show sortedByX ((sortedByY l').drop ((sortedByY l').length - 3))
      ++ sortedByX (((sortedByY l').drop 3).take 3)
      ++ sortedByX ((sortedByY l').take 3) = _
    rw [hyy]
    rfl

/-- Witness for C3: a concrete shuffled 3-by-3 rod layout satisfies all
hypotheses of `sortRods_det_rows`. -/
theorem sortRods_det_rows_witness :
    sortRods [⟨8, mkRat 91 10⟩, ⟨1, 1⟩, ⟨6, mkRat 49 10⟩, ⟨2, mkRat 11 10⟩,
        ⟨7, 9⟩, ⟨4, 5⟩, ⟨3, mkRat 9 10⟩, ⟨5, mkRat 51 10⟩, ⟨9, mkRat 89 10⟩]
      = sortedByX [⟨7, 9⟩, ⟨8, mkRat 91 10⟩, ⟨9, mkRat 89 10⟩]
        ++ sortedByX [⟨4, 5⟩, ⟨5, mkRat 51 10⟩, ⟨6, mkRat 49 10⟩]
        ++ sortedByX [⟨1, 1⟩, ⟨2, mkRat 11 10⟩, ⟨3, mkRat 9 10⟩] :=
  (sortRods_det_rows
    [⟨1, 1⟩, ⟨2, mkRat 11 10⟩, ⟨3, mkRat 9 10⟩]
    [⟨4, 5⟩, ⟨5, mkRat 51 10⟩, ⟨6, mkRat 49 10⟩]
    [⟨7, 9⟩, ⟨8, mkRat 91 10⟩, ⟨9, mkRat 89 10⟩]
    [⟨8, mkRat 91 10⟩, ⟨1, 1⟩, ⟨6, mkRat 49 10⟩, ⟨2, mkRat 11 10⟩,
      ⟨7, 9⟩, ⟨4, 5⟩, ⟨3, mkRat 9 10⟩, ⟨5, mkRat 51 10⟩, ⟨9, mkRat 89 10⟩]
    (by decide) (by decide) (by decide) (by decide) (by decide) (by decide)
    (by decide) (by decide) (by decide) (by decide) (by decide)).1

theorem componentsAux_no_true (m : List (List Bool)) (hf : ∀ c, maskGet m c = false)
    (fuel : ℕ) :
    ∀ (cells visited : List Cell) (acc : List (List Cell)),
      componentsAux m fuel cells visited acc = acc.reverse := by
  intro cells
  induction cells with
  | nil => intro _ _; rfl
  | cons c rest ih =>
    intro visited acc
    simp only [componentsAux]
    by_cases hc : c ∈ visited
    · rw [if_pos hc]
      exact ih visited acc
    · rw [if_neg hc, hf c]
      simp only [Bool.false_eq_true, if_false]
      exact ih visited acc

theorem components_no_true (m : List (List Bool)) (hf : ∀ c, maskGet m c = false) :
    components m = [] := by
  unfold components
  exact componentsAux_no_true m hf _ _ [] []

theorem maskGet_all_false (l : List (List Bool))
    (h : ∀ row ∈ l, ∀ b ∈ row, b = false) (c : Cell) : maskGet l c = false := by
  obtain ⟨i, j⟩ := c
  unfold maskGet
  by_cases hi : i < l.length
  · rw [List.getD_eq_getElem l [] hi]
    have hrow : l[i] ∈ l := List.getElem_mem hi
    by_cases hj : j < l[i].length
    · rw [List.getD_eq_getElem _ false hj]
      exact h l[i] hrow (l[i])[j] (List.getElem_mem hj)
    · exact List.getD_eq_default _ false (le_of_not_lt hj)
  · rw [List.getD_eq_default _ [] (le_of_not_lt hi)]
    rfl

theorem threshMask_intMin_false (img : List (List ℕ)) (c : Cell) :
    maskGet (threshMask img intMin64) c = false := by
  apply maskGet_all_false
  intro row hrow b hb
  rw [threshMask] at hrow
  obtain ⟨r0, _, hr0⟩ := List.mem_map.mp hrow
  subst hr0
  obtain ⟨v, _, hv⟩ := List.mem_map.mp hb
  subst hv
  apply decide_eq_false
  have h0 : (0 : ℤ) ≤ (v : ℤ) := Int.ofNat_nonneg v
  have hneg : intMin64 < 0 := by norm_num [intMin64]
  omega

/-- **C1 (amended).** If no threshold level in the sweep `range(0, img_max)`
yields exactly 10 connected components, `get_rods` does not return
centroids: the qualifying-index list is empty, `np.median([])` is NaN, the
NaN-to-int cast gives `INT64_MIN`, the relabelling at that threshold finds 0
components, and the function terminates the process via
`sys.exit("Did not find the 9 rods")` — a `SystemExit`, not the
specification's `DetectionError`. -/
theorem getRods_no_qualifying_threshold (img : List (List ℕ))
    (h : ∀ x, x < natGridMax img → (components (threshMask img (x : ℤ))).length ≠ 10) :
    getRods img = Except.error (RodFailure.sysExit "Did not find the 9 rods") := by
  have hidx : (List.range (natGridMax img)).filter
      (fun (x : ℕ) => decide ((components (threshMask img ((x : ℕ) : ℤ))).length = 10))
      = [] := by
    rw [List.filter_eq_nil_iff]
    intro a ha
    rw [decide_eq_true_iff]
    exact h a (List.mem_range.mp ha)
  have hcomp : components (threshMask img intMin64) = [] :=
    components_no_true _ (threshMask_intMin_false img)
  simp only [getRods, hidx, List.isEmpty_nil, if_true, hcomp, List.length_nil]
  norm_num

set_option maxRecDepth 100000 in
/-- Counterexample for C1 as stated: on the concrete image with only 8
separable dark disks, `get_rods` fails by `sys.exit` (`SystemExit`), which
is not the `DetectionError` the claim names. -/
theorem getRods_eight_disks_not_detectionError :
    getRods eightDiskImage
        = Except.error (RodFailure.sysExit "Did not find the 9 rods")
    ∧ RodFailure.sysExit "Did not find the 9 rods" ≠ RodFailure.detectionError := by
  constructor
  · decide
  · decide

set_option maxRecDepth 100000 in
/-- Witness for `getRods_no_qualifying_threshold`: the 8-disk image
satisfies the no-qualifying-threshold hypothesis. -/
theorem getRods_no_qualifying_threshold_witness :
    (∀ x, x < natGridMax eightDiskImage
        → (components (threshMask eightDiskImage (x : ℤ))).length ≠ 10)
    ∧ getRods eightDiskImage
        = Except.error (RodFailure.sysExit "Did not find the 9 rods") :=
  ⟨by decide, getRods_no_qualifying_threshold eightDiskImage (by decide)⟩

theorem cvTransformPoint_roundtrip (M : Mat23) (hdet : M.a * M.e - M.b * M.d ≠ 0)
    (p : ℚ × ℚ) : cvTransformPoint (invertAffine M) (cvTransformPoint M p) = p := by
  obtain ⟨x, y⟩ := p
  simp only [cvTransformPoint, invertAffine, qadd_eq, qmul_eq, qsub_eq, qdiv_eq, qneg_eq,
    Prod.mk.injEq]
  constructor
  · field_simp
    ring
  · field_simp
    ring

/-- **C6.** For any point list and any 2x3 matrix whose linear part is
invertible, applying `transform_coords` with yx input / xy output and then
applying the affine inverse with xy input / yx output recovers the original
points exactly (the model computes in exact rationals, so the 1e-6 round-trip
tolerance of the claim is met with margin 0). -/
theorem transformCoords_roundtrip (pts : List (ℚ × ℚ)) (M : Mat23)
    (hdet : M.a * M.e - M.b * M.d ≠ 0) :
    transformCoords (transformCoords pts M true false) (invertAffine M) false true
      = pts := by
  simp only [transformCoords, if_true, Bool.false_eq_true, if_false, List.map_map]
  induction pts with
  | nil => rfl
  | cons p t ih =>
    simp only [List.map_cons, Function.comp_apply] at ih ⊢
    rw [cvTransformPoint_roundtrip M hdet]
    rw [List.cons.injEq]
    exact ⟨rfl, ih⟩

/-- Witness for `transformCoords_roundtrip` at a concrete matrix and point
list. -/
theorem transformCoords_roundtrip_witness :
    transformCoords
        (transformCoords [(mkRat 1 2, 3), (mkRat (-7) 5, mkRat 2 3)]
          ⟨2, 1, 0, 1, 1, 3⟩ true false)
        (invertAffine ⟨2, 1, 0, 1, 1, 3⟩) false true
      = [(mkRat 1 2, 3), (mkRat (-7) 5, mkRat 2 3)] :=
  transformCoords_roundtrip [(mkRat 1 2, 3), (mkRat (-7) 5, mkRat 2 3)]
    ⟨2, 1, 0, 1, 1, 3⟩ (by norm_num)

/-- **C9 (amended).** `template_fit` refines a 2x3 transform initialised to
the identity under an iteration budget of 500 and convergence epsilon 1e-10,
and whatever error the ECC optimiser raises propagates unchanged to the
caller — the code contains no RegistrationError and no error translation. -/
theorem templateFit_spec
    (ecc : List (List ℤ) → List (List ℤ) → Mat23 → EccCriteria
      → Except CvError (ℚ × Mat23))
    (tmpl tgt : List (List ℚ)) :
    (∀ cc W, ecc (cvNormalizeMinMax8U (tmpl.map (List.map qabs)))
        (cvNormalizeMinMax8U (tgt.map (List.map qabs)))
        eccIdentityWarp eccDefaultCriteria = .ok (cc, W)
      → templateFit ecc tmpl tgt = .ok W)
    ∧ (∀ err, ecc (cvNormalizeMinMax8U (tmpl.map (List.map qabs)))
        (cvNormalizeMinMax8U (tgt.map (List.map qabs)))
        eccIdentityWarp eccDefaultCriteria = .error err
      → templateFit ecc tmpl tgt = .error err)
    ∧ eccDefaultCriteria.maxCount = 500
    ∧ eccDefaultCriteria.epsilon = mkRat 1 (10 ^ 10)
    ∧ eccIdentityWarp = ⟨1, 0, 0, 0, 1, 0⟩ := by
  refine ⟨?_, ?_, rfl, rfl, rfl⟩
  · intro cc W h
    simp only [templateFit, h, Except.map]
  · intro err h
    simp only [templateFit, h, Except.map]

/-- Counterexample for C9 as stated: when the (abstracted) ECC optimiser
fails, `template_fit` surfaces the OpenCV error itself, which is not the
`RegistrationError` the claim names. -/
theorem templateFit_error_not_registrationError :
    templateFit (fun _ _ _ _ => .error (.cvError "findTransformECC failed"))
        [[1]] [[0]]
      = .error (.cvError "findTransformECC failed")
    ∧ CvError.cvError "findTransformECC failed" ≠ CvError.registrationError :=
  ⟨rfl, by decide⟩

/-- Witness for `templateFit_spec`: a concrete optimiser outcome flows
through unchanged. -/
theorem templateFit_spec_witness :
    templateFit (fun _ _ _ _ => .ok (1, ⟨2, 0, 5, 0, 2, 7⟩)) [[1]] [[1]]
      = .ok ⟨2, 0, 5, 0, 2, 7⟩ :=
  (templateFit_spec (fun _ _ _ _ => .ok (1, ⟨2, 0, 5, 0, 2, 7⟩)) [[1]] [[1]]).1
    1 ⟨2, 0, 5, 0, 2, 7⟩ rfl

theorem exceptMapList_ok_length {α β : Type} (f : α → Except Unit β) :
    ∀ (l : List α) (vals : List β), exceptMapList f l = .ok vals
      → vals.length = l.length := by
  intro l
  induction l with
  | nil =>
    intro vals h
    simp only [exceptMapList] at h
    injection h with h
    rw [← h]
    rfl
  | cons a t ih =>
    intro vals h
    simp only [exceptMapList] at h
    cases hfa : f a with
    | error e => rw [hfa] at h; exact absurd h (by simp)
    | ok b =>
      rw [hfa] at h
      cases hmt : exceptMapList f t with
      | error e => rw [hmt] at h; exact absurd h (by simp)
      | ok bs =>
        rw [hmt] at h
        injection h with h
        rw [← h, List.length_cons, List.length_cons, ih bs hmt]

theorem listGetD_set_ne {α : Type} (l : List α) (i j : ℕ) (a d : α) (h : i ≠ j) :
    (l.set i a).getD j d = l.getD j d := by
  by_cases hj : j < l.length
  · rw [List.getD_eq_getElem _ d (by simpa using hj), List.getD_eq_getElem _ d hj]
    exact List.getElem_set_ne h _
  · rw [List.getD_eq_default _ d (by simpa using le_of_not_lt hj),
      List.getD_eq_default _ d (le_of_not_lt hj)]

theorem gridGet_setGrid_ne (g : List (List ℚ)) (r' c' r c : ℕ) (v : ℚ)
    (hne : ¬(r' = r ∧ c' = c)) :
    gridGet (setGrid g r' c' v) r c = gridGet g r c := by
  by_cases hr : r' = r
  · subst hr
    have hc : c' ≠ c := fun h => hne ⟨rfl, h⟩
    unfold gridGet setGrid
    by_cases hlen : r' < g.length
    · rw [List.getD_eq_getElem _ [] (by simpa using hlen),
        List.getElem_set_self (by simpa using hlen),
        List.getD_eq_getElem _ [] hlen]
      exact listGetD_set_ne _ _ _ _ _ hc
    · rw [List.getD_eq_default _ [] (by simpa using le_of_not_lt hlen),
        List.getD_eq_default _ [] (le_of_not_lt hlen)]
  · unfold gridGet setGrid
    rw [listGetD_set_ne _ _ _ _ _ hr]

theorem gridGet_setGrid_self (g : List (List ℚ)) (r c : ℕ) (v : ℚ)
    (hr : r < g.length) (hc : c < (g.getD r []).length) :
    gridGet (setGrid g r c v) r c = v := by
  unfold gridGet setGrid
  rw [List.getD_eq_getElem _ [] (by simpa using hr),
    List.getElem_set_self (by simpa using hr)]
  rw [List.getD_eq_getElem g [] hr] at hc ⊢
  rw [List.getD_eq_getElem _ 0 (by simpa using hc)]
  exact List.getElem_set_self (by simpa using hc)

theorem setGrid_length (g : List (List ℚ)) (r c : ℕ) (v : ℚ) :
    (setGrid g r c v).length = g.length := List.length_set _ _ _

theorem setGrid_row_length (g : List (List ℚ)) (r' c' r : ℕ) (v : ℚ) :
    ((setGrid g r' c' v).getD r []).length = (g.getD r []).length := by
  unfold setGrid
  by_cases hr : r' = r
  · subst hr
    by_cases hlen : r' < g.length
    · rw [List.getD_eq_getElem _ [] (by simpa using hlen),
        List.getElem_set_self (by simpa using hlen), List.length_set,
        List.getD_eq_getElem g [] hlen]
    · rw [List.getD_eq_default _ [] (by simpa using le_of_not_lt hlen),
        List.getD_eq_default _ [] (le_of_not_lt hlen)]
  · rw [listGetD_set_ne _ _ _ _ _ hr]

theorem uniformityIterator_preserves (mi : List (List ℚ)) (sm : List (List Bool))
    (cx cy dVoid : ℤ) :
    ∀ (cands : List (ℕ × ℕ)) (g out : List (List ℚ)),
      uniformityIterator mi sm cx cy dVoid cands g = .ok out →
      ∀ r c, (r, c) ∉ cands → gridGet out r c = gridGet g r c := by
  intro cands
  induction cands with
  | nil =>
    intro g out h r c _
    simp only [uniformityIterator] at h
    injection h with h
    rw [h]
  | cons p rest ih =>
    obtain ⟨r', c'⟩ := p
    intro g out h r c hmem
    simp only [uniformityIterator] at h
    cases hcv : uniformityCandidateValue mi sm cx cy dVoid r' c' with
    | error e => rw [hcv] at h; exact absurd h (by simp)
    | ok v =>
      rw [hcv] at h
      have hrc : (r, c) ∉ rest := fun hin => hmem (List.mem_cons_of_mem _ hin)
      rw [ih _ _ h r c hrc]
      apply gridGet_setGrid_ne
      intro ⟨h1, h2⟩
      exact hmem (by rw [h1, h2]; exact List.mem_cons_self _ _)

theorem uniformityCandidateValue_eq (mi : List (List ℚ)) (sm : List (List Bool))
    (cx cy dVoid : ℤ) (r c : ℕ) (vals : List ℚ)
    (hvals : exceptMapList (fun cell =>
        npGet2 mi ((cell.1 : ℤ) + (r : ℤ) - cx - dVoid)
          ((cell.2 : ℤ) + (c : ℤ) - cy)) (maskCoords sm) = .ok vals) :
    uniformityCandidateValue mi sm cx cy dVoid r c
      = .ok (if (vals.filter (fun v => decide (v ≠ 0))).length = (maskCoords sm).length
          then qdiv (qsum vals) (qint vals.length) else 0) := by
  have hlen : vals.length = (maskCoords sm).length :=
    exceptMapList_ok_length _ _ _ hvals
  have hle : (vals.filter (fun v => decide (v ≠ 0))).length ≤ vals.length :=
    List.length_filter_le _ _
  simp only [uniformityCandidateValue, hvals]
  by_cases heq : (vals.filter (fun v => decide (v ≠ 0))).length = (maskCoords sm).length
  · have hfil : vals.filter (fun v => decide (v ≠ 0)) = vals :=
      (List.filter_sublist vals).eq_of_length (by omega)
    rw [if_neg (by omega), if_pos heq, hfil]
  · rw [if_pos (by omega), if_neg heq]

theorem uniformityIterator_at (mi : List (List ℚ)) (sm : List (List Bool))
    (cx cy dVoid : ℤ) :
    ∀ (cands : List (ℕ × ℕ)) (init out : List (List ℚ)),
      uniformityIterator mi sm cx cy dVoid cands init = .ok out →
      cands.Nodup → ∀ r c, (r, c) ∈ cands → r < init.length
      → c < (init.getD r []).length
      → ∀ w, uniformityCandidateValue mi sm cx cy dVoid r c = .ok w
      → gridGet out r c = w := by
  intro cands
  induction cands with
  | nil =>
    intro init out h hnd r c hmem
    exact absurd hmem (List.not_mem_nil _)
  | cons p rest ih =>
    obtain ⟨r', c'⟩ := p
    intro init out h hnd r c hmem hr hc w hw
    simp only [uniformityIterator] at h
    cases hcv : uniformityCandidateValue mi sm cx cy dVoid r' c' with
    | error e => rw [hcv] at h; exact absurd h (by simp)
    | ok v =>
      rw [hcv] at h
      rcases List.mem_cons.mp hmem with heq | hmemr
      · injection heq with h1 h2
        subst h1
        subst h2
        have hvw : v = w := by
          injection hcv.symm.trans hw
        have hnotin : (r, c) ∉ rest := (List.nodup_cons.mp hnd).1
        rw [uniformityIterator_preserves mi sm cx cy dVoid rest _ out h r c hnotin]
        rw [gridGet_setGrid_self init r c v hr hc, hvw]
      · apply ih _ _ h (List.nodup_cons.mp hnd).2 r c hmemr ?_ ?_ w hw
        · rw [setGrid_length]; exact hr
        · rw [setGrid_row_length]; exact hc

/-- **C8.** In the uniformity sweep, for every candidate centre (with the
translated footprint in bounds, candidates distinct and inside the array),
the recorded value is the mean intensity over the translated small-mask
footprint exactly when the footprint's non-zero count equals the small
mask's pixel count (it can never exceed it), and is exactly zero
otherwise. -/
theorem uniformityIterator_records (mi : List (List ℚ)) (sm : List (List Bool))
    (cx cy dVoid : ℤ) (cands : List (ℕ × ℕ)) (init out : List (List ℚ))
    (r c : ℕ) (vals : List ℚ)
    (hrun : uniformityIterator mi sm cx cy dVoid cands init = .ok out)
    (hmem : (r, c) ∈ cands) (hnodup : cands.Nodup)
    (hr : r < init.length) (hc : c < (init.getD r []).length)
    (hvals : exceptMapList (fun cell =>
        npGet2 mi ((cell.1 : ℤ) + (r : ℤ) - cx - dVoid)
          ((cell.2 : ℤ) + (c : ℤ) - cy)) (maskCoords sm) = .ok vals) :
    (vals.filter (fun v => decide (v ≠ 0))).length ≤ (maskCoords sm).length
    ∧ gridGet out r c
      = (if (vals.filter (fun v => decide (v ≠ 0))).length = (maskCoords sm).length
          then qdiv (qsum vals) (qint vals.length) else 0) := by
  constructor
  · rw [← exceptMapList_ok_length _ _ _ hvals]
    exact List.length_filter_le _ _
  · exact uniformityIterator_at mi sm cx cy dVoid cands init out hrun hnodup r c hmem
      hr hc _ (uniformityCandidateValue_eq mi sm cx cy dVoid r c vals hvals)

/-- Witness for `uniformityIterator_records` on a concrete 2x3 image with a
two-pixel sample mask and two candidate centres. -/
theorem uniformityIterator_records_witness :
    (([(1 : ℚ), 2].filter (fun v => decide (v ≠ 0))).length
        ≤ (maskCoords [[true, true]]).length)
    ∧ gridGet [[mkRat 3 2, 0, 0], [mkRat 7 2, 0, 0]] 0 0
      = (if (([(1 : ℚ), 2].filter (fun v => decide (v ≠ 0))).length
            = (maskCoords [[true, true]]).length)
          then qdiv (qsum [(1 : ℚ), 2]) (qint ([(1 : ℚ), 2] : List ℚ).length) else 0) :=
  uniformityIterator_records [[1, 2, 0], [3, 4, 5]] [[true, true]] 0 0 0
    [(0, 0), (1, 0)] [[0, 0, 0], [0, 0, 0]] [[mkRat 3 2, 0, 0], [mkRat 7 2, 0, 0]]
    0 0 [1, 2] (by decide) (by decide) (by decide) (by decide) (by decide) (by decide)

/-- **C5 (amended).** `get_signal_ghosting` returns
`100 * |((north + south) - (east + west)) / (2 * large_ROI_mean)|`
computed over the four cardinal elliptical ROI means and the large central
ROI mean, **rounded to 3 decimal places** (`np.round(psg, 3)`); in
particular, whenever all four cardinal ROI means are zero (as on an image
with zero signal outside the phantom mask and the ROIs clear of the
phantom), it returns 0.0. -/
theorem getSignalGhosting_spec (img : List (List ℚ)) (res0 res1 : ℚ)
    (mask : List (List Bool)) (cxy0 cxy1 : ℤ) (sad : ℚ) (w e n s l : ℚ)
    (h : ghostingMeans img res0 res1 mask cxy0 cxy1 sad = .ok (w, e, n, s, l)) :
    getSignalGhosting img res0 res1 mask cxy0 cxy1 sad
      = .ok (roundTo 3 (psgRaw w e n s l))
    ∧ (w = 0 → e = 0 → n = 0 → s = 0 →
        getSignalGhosting img res0 res1 mask cxy0 cxy1 sad = .ok 0) := by
  constructor
  · simp only [getSignalGhosting, h]
  · intro hw he hn hs
    subst hw
    subst he
    subst hn
    subst hs
    simp only [getSignalGhosting, h]
    have hz : psgRaw 0 0 0 0 l = 0 := by
      unfold psgRaw
      simp only [qadd_eq, qsub_eq, qmul_eq, qdiv_eq, qabs_eq, qint_eq]
      norm_num
    rw [hz, show roundTo 3 (0 : ℚ) = 0 from by decide]

set_option maxRecDepth 1000000 in
set_option maxHeartbeats 8000000 in
/-- Counterexample for C5 as stated: on a concrete image the returned value
is the 3-decimal rounding 0.247, not the exact metric value 49/198 =
0.24747...; the claim omits the `np.round(psg, 3)`. -/
theorem getSignalGhosting_round_counterexample :
    ghostingMeans ghostSpikeImage 10 10 ghostPhantomMask 14 14 2
      = .ok (mkRat 1 11, 0, 0, 0, mkRat 900 49)
    ∧ getSignalGhosting ghostSpikeImage 10 10 ghostPhantomMask 14 14 2
      = .ok (mkRat 247 1000)
    ∧ psgRaw (mkRat 1 11) 0 0 0 (mkRat 900 49) = mkRat 49 198
    ∧ (mkRat 247 1000 : ℚ) ≠ mkRat 49 198 :=
  ⟨by decide, by decide, by decide, by decide⟩

set_option maxRecDepth 1000000 in
set_option maxHeartbeats 8000000 in
/-- Witness for `getSignalGhosting_spec`: on the zero-signal-outside-phantom
image the four cardinal means are 0 and the result is exactly 0. -/
theorem getSignalGhosting_spec_witness :
    getSignalGhosting ghostFlatImage 10 10 ghostPhantomMask 14 14 2 = .ok 0 :=
  (getSignalGhosting_spec ghostFlatImage 10 10 ghostPhantomMask 14 14 2
    0 0 0 0 (mkRat 900 49) (by decide)).2 rfl rfl rfl rfl

set_option maxRecDepth 100000 in
/-- **C4.** On a perfectly flat (constant, noiseless) image the uniformity
computation does not return 100.0: the strict `<` / `>` comparisons against
the median leave both candidate sets empty, the shared `mean_array` stays
all-zero, and `np.min` over the empty non-zero selection raises a
`ValueError` (modelled as `.error .emptyReduce`). -/
theorem getIntegralUniformity_flat_crashes :
    getIntegralUniformity (constantGrid 8 8 5) 4 4 3 1 0 = .error .emptyReduce := by
  decide

theorem addLists_error (a b : List ℚ) (e : FitError) (h : addLists a b = .error e) :
    e = .shapeMismatch := by
  unfold addLists at h
  split at h
  · exact absurd h (by simp)
  · injection h with h
    exact h.symm

theorem ssdE_error (a b : List ℚ) (e : FitError) (h : ssdE a b = .error e) :
    e = .shapeMismatch := by
  unfold ssdE at h
  split at h
  · exact absurd h (by simp)
  · injection h with h
    exact h.symm

theorem getError_error (xi pi : List ℚ) (b : ℚ × ℚ × ℚ) (t : TrapCoeffs)
    (e : FitError) (h : getError xi pi b t = .error e) : e = .shapeMismatch := by
  unfold getError at h
  cases ha : addLists (xi.map (polyval3 b)) (trapSignal t) with
  | error e' =>
    rw [ha] at h
    injection h with h
    rw [← h]
    exact addLists_error _ _ _ ha
  | ok synth =>
    rw [ha] at h
    exact ssdE_error _ _ _ h

theorem passStep_spec (xi pi : List ℚ) (st : FitState) (i : ℕ) (st' : FitState)
    (acc : Bool) (h : passStep xi pi st i = .ok (st', acc)) :
    (acc = true → st'.err < st.err) ∧ (acc = false → st' = st) := by
  simp only [passStep] at h
  split at h
  · exact absurd h (by simp)
  · split at h
    · rename_i hlt
      split at h
      · injection h with h
        rw [Prod.mk.injEq] at h
        obtain ⟨h1, h2⟩ := h
        refine ⟨fun _ => ?_, fun hacc => ?_⟩
        · rw [← h1]
          exact hlt
        · rw [← h2] at hacc
          exact absurd hacc (by simp)
      · injection h with h
        rw [Prod.mk.injEq] at h
        obtain ⟨h1, h2⟩ := h
        refine ⟨fun _ => ?_, fun hacc => ?_⟩
        · rw [← h1]
          exact hlt
        · rw [← h2] at hacc
          exact absurd hacc (by simp)
    · injection h with h
      rw [Prod.mk.injEq] at h
      obtain ⟨h1, h2⟩ := h
      refine ⟨fun hacc => ?_, fun _ => h1.symm⟩
      rw [← h2] at hacc
      exact absurd hacc (by simp)

theorem passStep_error (xi pi : List ℚ) (st : FitState) (i : ℕ) (e : FitError)
    (h : passStep xi pi st i = .error e) : e = .shapeMismatch := by
  simp only [passStep] at h
  split at h
  · rename_i e' hge
    injection h with h
    rw [← h]
    exact getError_error _ _ _ _ _ hge
  · split at h
    · split at h
      · exact absurd h (by simp)
      · exact absurd h (by simp)
    · exact absurd h (by simp)

theorem onePassAux_false (xi pi : List ℚ) :
    ∀ (is : List ℕ) (st : FitState) (acc : Bool) (st' : FitState),
      onePassAux xi pi is st acc = .ok (st', false) → st' = st ∧ acc = false := by
  intro is
  induction is with
  | nil =>
    intro st acc st' h
    simp only [onePassAux] at h
    injection h with h
    exact ⟨(congrArg Prod.fst h).symm, (congrArg Prod.snd h)⟩
  | cons i rest ih =>
    intro st acc st' h
    simp only [onePassAux] at h
    cases hps : passStep xi pi st i with
    | error e => rw [hps] at h; exact absurd h (by simp)
    | ok p =>
      obtain ⟨st1, accepted⟩ := p
      rw [hps] at h
      obtain ⟨h1, h2⟩ := ih st1 (acc || accepted) st' h
      have hor := Bool.or_eq_false_iff.mp h2
      have hst1 : st1 = st := (passStep_spec xi pi st i st1 accepted hps).2 hor.2
      exact ⟨h1.trans hst1, hor.1⟩

theorem onePassAux_error (xi pi : List ℚ) :
    ∀ (is : List ℕ) (st : FitState) (acc : Bool) (e : FitError),
      onePassAux xi pi is st acc = .error e → e = .shapeMismatch := by
  intro is
  induction is with
  | nil =>
    intro st acc e h
    exact absurd h (by simp [onePassAux])
  | cons i rest ih =>
    intro st acc e h
    simp only [onePassAux] at h
    cases hps : passStep xi pi st i with
    | error e' =>
      rw [hps] at h
      injection h with h
      rw [← h]
      exact passStep_error _ _ _ _ _ hps
    | ok p =>
      obtain ⟨st1, accepted⟩ := p
      rw [hps] at h
      exact ih st1 (acc || accepted) e h

theorem fitLoop_error (xi pi : List ℚ) :
    ∀ (fuel : ℕ) (st : FitState) (e : FitError),
      fitLoop xi pi fuel st = .error e → e = .shapeMismatch := by
  intro fuel
  induction fuel with
  | zero =>
    intro st e h
    exact absurd h (by simp [fitLoop])
  | succ n ih =>
    intro st e h
    simp only [fitLoop] at h
    cases hop : onePass xi pi st with
    | error e' =>
      rw [hop] at h
      injection h with h
      rw [← h]
      exact onePassAux_error xi pi _ _ _ _ hop
    | ok p =>
      obtain ⟨st', accepted⟩ := p
      rw [hop] at h
      cases accepted with
      | true => exact ih st' e h
      | false => exact absurd h (by simp)

theorem percentileQ_error (l : List ℚ) (q : ℚ) (e : FitError)
    (h : percentileQ l q = .error e) : e = .emptyPercentile := by
  unfold percentileQ at h
  cases hs : qsortAsc l with
  | nil =>
    rw [hs] at h
    injection h with h
    exact h.symm
  | cons x xs =>
    rw [hs] at h
    exact absurd h (by simp)

theorem getInitial_error (profile : List ℚ) (t : ℚ) (e : FitError)
    (h : getInitial profile t = .error e) : e ≠ .fitDivergenceError := by
  simp only [getInitial] at h
  split at h
  · injection h with h
    rw [← h]
    exact fun hc => FitError.noConfusion hc
  · rename_i nr np heq
    cases hf : (List.range profile.length).filter
        (fun (i : ℕ) => decide (profile.getD i 0
          < qdiv (qsum profile) (qint (profile.length : ℤ)))) with
    | nil =>
      rw [hf] at h
      injection h with h
      rw [← h]
      exact fun hc => FitError.noConfusion hc
    | cons i0 irest =>
      rw [hf] at h
      cases h5 : percentileQ profile (qint 5) with
      | error e5 =>
        rw [h5] at h
        injection h with h
        rw [← h, percentileQ_error _ _ _ h5]
        exact fun hc => FitError.noConfusion hc
      | ok p5 =>
        rw [h5] at h
        cases h95 : percentileQ profile (qint 95) with
        | error e95 =>
          rw [h95] at h
          injection h with h
          rw [← h, percentileQ_error _ _ _ h95]
          exact fun hc => FitError.noConfusion hc
        | ok p95 =>
          rw [h95] at h
          exact absurd h (by simp)

/-- **C2 (amended).** The trapezoid coordinate-descent search accepts a
perturbation exactly when its candidate error is strictly below the tracked
`current_error` (so the tracked error strictly decreases on every accepted
step, and a rejected step leaves the state unchanged); a full pass that
accepts no perturbation terminates the loop, returning the current
coefficients.  The code has **no** safety iteration cap: the pass counter
`j` is never checked, and no `FitDivergenceError` exists — the only errors
`fit_trapezoid` can raise are numpy shape errors and the initial-guess
failures (bad slice thickness, empty median or percentile). -/
theorem fitTrapezoid_coordinate_descent :
    (∀ (xi pi : List ℚ) (st : FitState) (i : ℕ) (st' : FitState) (acc : Bool),
      passStep xi pi st i = .ok (st', acc) →
        (acc = true → st'.err < st.err) ∧ (acc = false → st' = st))
    ∧ (∀ (xi pi : List ℚ) (st st' : FitState) (fuel : ℕ),
        onePass xi pi st = .ok (st', false) →
          st' = st ∧ fitLoop xi pi (fuel + 1) st = .ok (some (st.trap, st.base)))
    ∧ (∀ (p : CorrectedProfiles) (t : ℚ) (fuel : ℕ) (e : FitError),
        fitTrapezoid p t fuel = .error e → e ≠ FitError.fitDivergenceError) := by
  refine ⟨passStep_spec, ?_, ?_⟩
  · intro xi pi st st' fuel h
    have hst : st' = st := (onePassAux_false xi pi _ _ _ _ h).1
    refine ⟨hst, ?_⟩
    simp only [fitLoop]
    rw [show onePass xi pi st = .ok (st', false) from h, hst]
  · intro p t fuel e h
    simp only [fitTrapezoid] at h
    split at h
    · rename_i e' hgi
      injection h with h
      rw [← h]
      exact getInitial_error _ _ _ hgi
    · rename_i pr hgi
      split at h
      · rename_i e' hal
        injection h with h
        rw [← h, addLists_error _ _ _ hal]
        exact fun hc => FitError.noConfusion hc
      · rename_i synth0 hal
        split at h
        · rename_i e' hsd
          injection h with h
          rw [← h, ssdE_error _ _ _ hsd]
          exact fun hc => FitError.noConfusion hc
        · rename_i cur0 hsd
          rw [fitLoop_error _ _ _ _ _ h]
          exact fun hc => FitError.noConfusion hc

/-- Counterexample for C2 as stated: a concrete state on which perturbation
6 (decrease the ramp width) is accepted — the flag is set and the tracked
error drops from 1 to 0 — yet, because the source stores the trapezoid
coefficients only `if i > 6`, the returned state carries the *unchanged*
baseline and trapezoid coefficients, whose sum-of-squared-residuals
objective is still 1: the accepted perturbation did not reduce the
objective of the state the search keeps.  (The spec's claimed safety cap
and FitDivergenceError do not exist in the code at all.) -/
theorem fitTrapezoid_accepts_without_reducing :
    passStep (List.replicate 11 (0 : ℚ)) [0, 0, 0, 0, 1, 1, 1, 1, 0, 0, 0]
        ⟨(0, 0, 0), ⟨2, 3, 2, 2, 1⟩, 1⟩ 6
      = .ok (⟨(0, 0, 0), ⟨2, 3, 2, 2, 1⟩, 0⟩, true)
    ∧ getError (List.replicate 11 (0 : ℚ)) [0, 0, 0, 0, 1, 1, 1, 1, 0, 0, 0]
        (0, 0, 0) ⟨2, 3, 2, 2, 1⟩ = .ok 1
    ∧ getError (List.replicate 11 (0 : ℚ)) [0, 0, 0, 0, 1, 1, 1, 1, 0, 0, 0]
        (0, 0, 0) (perturbTrap 6 ⟨2, 3, 2, 2, 1⟩) = .ok 0 :=
  ⟨by decide, by decide, by decide⟩

set_option maxRecDepth 200000 in
/-- Witness for `fitTrapezoid_coordinate_descent`: a concrete state on which
a full pass accepts nothing, so the loop stops and returns its
coefficients. -/
theorem fitTrapezoid_coordinate_descent_witness :
    onePass (List.replicate 55 (0 : ℚ)) (List.replicate 55 (0 : ℚ))
        ⟨(0, 0, 0), ⟨7, 32, 5, 4, 0⟩, 0⟩
      = .ok (⟨(0, 0, 0), ⟨7, 32, 5, 4, 0⟩, 0⟩, false)
    ∧ fitLoop (List.replicate 55 (0 : ℚ)) (List.replicate 55 (0 : ℚ)) 1
        ⟨(0, 0, 0), ⟨7, 32, 5, 4, 0⟩, 0⟩
      = .ok (some (⟨7, 32, 5, 4, 0⟩, (0, 0, 0))) := by
  have h : onePass (List.replicate 55 (0 : ℚ)) (List.replicate 55 (0 : ℚ))
      ⟨(0, 0, 0), ⟨7, 32, 5, 4, 0⟩, 0⟩
      = .ok (⟨(0, 0, 0), ⟨7, 32, 5, 4, 0⟩, 0⟩, false) := by decide
  exact ⟨h, (fitTrapezoid_coordinate_descent.2.1 _ _ _ _ 0 h).2⟩
